import Mathlib

/-!
Verification development for the MPMS custom-scenario signal timeline engine.

The TypeScript store (zustand) is shallowly embedded: JS strings are lists of
characters, JS numbers are exact rationals (`ℚ`), times on the sample grid and
the store's `duration` (seconds) / `sampleRate` (milliseconds) are naturals as
used by all callers.  Each store action becomes a pure function
`Store → Store`; the per-signal data transformations inside `setDuration`,
`setSampleRate`, `regenerateSignalFromControlPoints` and `importCSV` are
factored out exactly as they appear in the source.
-/

unseal Rat.add Rat.sub Rat.mul Rat.inv Rat.ofScientific

/-- Model of a JavaScript string as its character sequence. -/
abbrev JStr := List Char

/-- Model of `String.prototype.includes`: substring containment test. -/
def strIncludes (hay needle : JStr) : Bool :=
  match hay with
  | [] => needle.isEmpty
  | _ :: t => needle.isPrefixOf hay || strIncludes t needle

/-- Model of `String.prototype.toLowerCase` (ASCII fragment used by the data). -/
def toLowerS (s : JStr) : JStr := s.map Char.toLower

/-- Model of `String.prototype.split` with a single-character separator. -/
def splitOnChar (c : Char) : JStr → List JStr
  | [] => [[]]
  | a :: as =>
    let r := splitOnChar c as
    if a = c then [] :: r
    else
      match r with
      | [] => [[a]]
      | h :: t => (a :: h) :: t

/-- Model of `String.prototype.trim`. -/
def trimChars (s : JStr) : JStr :=
  ((s.dropWhile Char.isWhitespace).reverse.dropWhile Char.isWhitespace).reverse

/-- Value of a digit string, most significant first (`'4' '2'` ↦ 42). -/
def digitsToNat (s : JStr) : ℕ :=
  s.foldl (fun acc c => acc * 10 + (c.toNat - 48)) 0

/-- Fuel-driven digit rendering; the fuel always suffices when it exceeds the
number (structural recursion keeps the function kernel-reducible). -/
def natReprAux : ℕ → ℕ → JStr
  | 0, _ => []
  | fuel + 1, n =>
    if n < 10 then [Nat.digitChar n]
    else natReprAux fuel (n / 10) ++ [Nat.digitChar (n % 10)]

/-- Model of `Number.prototype.toString` on a natural number (decimal digits). -/
def natRepr (n : ℕ) : JStr := natReprAux (n + 1) n

/-- Model of `String.prototype.padStart` with a one-character pad. -/
def padStart (s : JStr) (n : ℕ) (c : Char) : JStr :=
  List.replicate (n - s.length) c ++ s

/-- Parses an unsigned decimal literal (`"12"`, `"12.5"`, `".5"`, `"1."`);
`none` models `NaN`.  Helper for `parseNum`. -/
def parsePos (t : JStr) : Option ℚ :=
  match splitOnChar '.' t with
  | [a] =>
    if !a.isEmpty && a.all Char.isDigit then some ((digitsToNat a : ℕ) : ℚ) else none
  | [a, b] =>
    if (!a.isEmpty || !b.isEmpty) && a.all Char.isDigit && b.all Char.isDigit then
      some ((digitsToNat a : ℚ) + (digitsToNat b : ℚ) / (10 : ℚ) ^ b.length)
    else none
  | _ => none

/-- Model of the JS `Number(string)` conversion on the decimal-literal fragment
exercised by this code base: trims whitespace, maps the empty string to `0`,
accepts an optional sign and decimal digits with an optional fraction;
everything else is `NaN` (modelled as `none`). -/
def parseNum (s : JStr) : Option ℚ :=
  let t := trimChars s
  if t.isEmpty then some 0
  else if t.head? = some '-' then (parsePos (t.drop 1)).map (fun q => -q)
  else if t.head? = some '+' then parsePos (t.drop 1)
  else parsePos t

/-- Model of `Math.round`: round half toward positive infinity. -/
def mathRound (x : ℚ) : ℤ := ⌊x + 1 / 2⌋

/-- Decimal rendering of an integer (model of `Number.prototype.toString`). -/
def intStr (n : ℤ) : JStr :=
  if n < 0 then '-' :: natRepr n.natAbs else natRepr n.toNat

/-- Model of `Number.prototype.toFixed`: `f` digits after the decimal point,
ties on the magnitude rounding away from zero exactly as the ECMAScript
specification prescribes (sign peeled off first). -/
def toFixedQ (x : ℚ) (f : ℕ) : JStr :=
  let n : ℕ := (⌊|x| * (10 : ℚ) ^ f + 1 / 2⌋).toNat
  let whole := n / 10 ^ f
  let frac := n % 10 ^ f
  (if x < 0 then ['-'] else []) ++ natRepr whole ++
    (if f = 0 then [] else '.' :: padStart (natRepr frac) f '0')

/-- A dense sample or a control point: `x` is the time in milliseconds, `y`
the signal value, `mod` the `isUserModified` flag (`undefined` ↦ `false`). -/
structure Pt where
  x : ℚ
  y : ℚ
  mod : Bool
deriving DecidableEq, Repr

/-- Signal metadata from `src/data/columns.ts` (`SignalMeta`); the source field
`def` is rendered `dflt` because `def` is a Lean keyword. -/
structure SigDef where
  unit : String
  min : ℚ
  max : ℚ
  dflt : ℚ
  step : Option ℚ := none
  softLow : Option ℚ := none
  softHigh : Option ℚ := none
deriving DecidableEq, Repr

/-- The `SIGNALS` catalog from `src/data/columns.ts`, in source order. -/
def SIGNALS : List (String × SigDef) :=
  [ ("HR", { unit := "bpm", min := 0, max := 220, dflt := 70, step := some 1, softLow := some 60, softHigh := some 80 })
  , ("ST-II", { unit := "mm", min := -5, max := 5, dflt := 0, step := some 0.5 })
  , ("Pulse", { unit := "bpm", min := 0, max := 220, dflt := 70, step := some 1 })
  , ("SpO2", { unit := "%", min := 50, max := 100, dflt := 98, step := some 1, softLow := some 96, softHigh := some 100 })
  , ("Perf", { unit := "%PI", min := 0, max := 20, dflt := 5, step := some 0.1 })
  , ("etCO2", { unit := "mmHg", min := 0, max := 80, dflt := 35, step := some 1, softLow := some 32, softHigh := some 38 })
  , ("imCO2", { unit := "mmHg", min := 0, max := 20, dflt := 0, step := some 0.5 })
  , ("awRR", { unit := "bpm", min := 0, max := 60, dflt := 14, step := some 1 })
  , ("NBP (Sys)", { unit := "mmHg", min := 50, max := 220, dflt := 120, step := some 1, softLow := some 100, softHigh := some 140 })
  , ("NBP (Dia)", { unit := "mmHg", min := 30, max := 140, dflt := 75, step := some 1, softLow := some 60, softHigh := some 90 })
  , ("NBP (Mean)", { unit := "mmHg", min := 40, max := 180, dflt := 90, step := some 1, softLow := some 70, softHigh := some 105 })
  , ("NBP (Pulse)", { unit := "mmHg", min := 10, max := 120, dflt := 45, step := some 1 })
  , ("NBP (Time Remaining)", { unit := "s", min := 0, max := 900, dflt := 0, step := some 5 })
  , ("ART (Sys)", { unit := "mmHg", min := 50, max := 250, dflt := 120, step := some 1 })
  , ("ART (Dia)", { unit := "mmHg", min := 30, max := 150, dflt := 75, step := some 1 })
  , ("ART (Mean)", { unit := "mmHg", min := 40, max := 200, dflt := 90, step := some 1 })
  , ("etDES", { unit := "%", min := 0, max := 12, dflt := 0, step := some 0.1 })
  , ("inDES", { unit := "%", min := 0, max := 12, dflt := 0, step := some 0.1 })
  , ("etISO", { unit := "%", min := 0, max := 5, dflt := 0, step := some 0.1 })
  , ("inISO", { unit := "%", min := 0, max := 5, dflt := 0, step := some 0.1 })
  , ("etSEV", { unit := "%", min := 0, max := 8, dflt := 0, step := some 0.1 })
  , ("inSEV", { unit := "%", min := 0, max := 8, dflt := 0, step := some 0.1 })
  , ("etN2O", { unit := "%", min := 0, max := 80, dflt := 0, step := some 1 })
  , ("inN2O", { unit := "%", min := 0, max := 80, dflt := 0, step := some 1 })
  , ("MAC", { unit := "MAC", min := 0, max := 2, dflt := 0, step := some 0.05 })
  , ("etO2", { unit := "%", min := 10, max := 100, dflt := 35, step := some 1 })
  , ("inO2", { unit := "%", min := 21, max := 100, dflt := 40, step := some 1 })
  , ("Temp", { unit := "°C", min := 30, max := 42, dflt := 36.6, step := some 0.1 })
  , ("BIS", { unit := "idx", min := 0, max := 100, dflt := 50, step := some 1 })
  , ("SQI", { unit := "%", min := 0, max := 100, dflt := 100, step := some 1 })
  , ("EMG", { unit := "arb", min := 0, max := 100, dflt := 20, step := some 1 })
  , ("Tidal Volume", { unit := "mL", min := 100, max := 1200, dflt := 450, step := some 10 })
  , ("Minute Volume", { unit := "L/min", min := 1, max := 20, dflt := 6.5, step := some 0.1 })
  , ("RR", { unit := "bpm", min := 0, max := 60, dflt := 14, step := some 1 })
  , ("Set Tidal Volume", { unit := "mL", min := 200, max := 800, dflt := 450, step := some 10 })
  , ("Set RR", { unit := "bpm", min := 6, max := 30, dflt := 14, step := some 1 })
  , ("Set PEEP", { unit := "cmH2O", min := 0, max := 20, dflt := 5, step := some 1 })
  , ("Set PAWmax", { unit := "cmH2O", min := 10, max := 40, dflt := 25, step := some 1 })
  , ("Set PAWmin", { unit := "cmH2O", min := 0, max := 10, dflt := 2, step := some 1 })
  , ("Tidal Volume Exp (Spiro)", { unit := "mL", min := 100, max := 1200, dflt := 440, step := some 10 })
  , ("Tidal Volume In (Spiro)", { unit := "mL", min := 100, max := 1200, dflt := 460, step := some 10 })
  , ("Minute Volume Exp (Spiro)", { unit := "L/min", min := 1, max := 20, dflt := 6.4, step := some 0.1 })
  , ("Minute Volume In (Spiro)", { unit := "L/min", min := 1, max := 20, dflt := 6.6, step := some 0.1 })
  , ("Lung Compliance (Spiro)", { unit := "mL/cmH2O", min := 20, max := 120, dflt := 60, step := some 1 })
  , ("Airway Resistance (Spiro)", { unit := "cmH2O/L/s", min := 2, max := 30, dflt := 8, step := some 0.5 })
  , ("Max Inspiratory Pressure (Spiro)", { unit := "cmH2O", min := 5, max := 40, dflt := 18, step := some 1 })
  , ("Num Patient Alarms", { unit := "count", min := 0, max := 999, dflt := 0, step := some 1 })
  , ("Num Technical Alarms", { unit := "count", min := 0, max := 999, dflt := 0, step := some 1 }) ]

/-- Lookup `SIGNALS[signalId]` (`undefined` ↦ `none`). -/
def findSignal (k : String) : Option SigDef :=
  (SIGNALS.find? (fun e => decide (e.1 = k))).map (·.2)

/-- Model of `Math.max(min, Math.min(max, value))`, the clamping idiom used
throughout the store. -/
def clampQ (sig : SigDef) (v : ℚ) : ℚ := max sig.min (min sig.max v)

/-- The shared grid arithmetic `Math.floor((duration * 1000) / sampleRate)`. -/
def gridSamples (d r : ℕ) : ℕ := d * 1000 / r

/-- Per-signal `generateBaselineData` from `src/state/store.ts`. -/
def generateBaselineData (k : String) (d r : ℕ) : List Pt :=
  match findSignal k with
  | none => []
  | some sig =>
    (List.range (gridSamples d r + 1)).map (fun i => ⟨((i * r : ℕ) : ℚ), sig.dflt, false⟩)

/-- Model of `Math.max(...existingData.map(p => p.x))`.  The `[]` case returns
`0` where JS yields `-Infinity`; every use in the store is guarded by a
nonempty `existingData`, where the two agree. -/
def maxX : List Pt → ℚ
  | [] => 0
  | p :: ps => ps.foldl (fun a q => max a q.x) p.x

/-- Model of `.sort((a, b) => b.x - a.x)[0]`: the first element carrying the
maximal `x` (ES2019 sorts are stable, so ties keep list order). -/
def pickMaxPt (l : List Pt) : Option Pt :=
  l.foldl
    (fun acc p =>
      match acc with
      | none => some p
      | some q => if q.x < p.x then some p else some q)
    none

/-- Model of `.sort((a, b) => a.x - b.x)[0]`: the first element carrying the
minimal `x`. -/
def pickMinPt (l : List Pt) : Option Pt :=
  l.foldl
    (fun acc p =>
      match acc with
      | none => some p
      | some q => if p.x < q.x then some p else some q)
    none

/-- The rightmost user-modified point, exactly as computed inside
`setDuration` (filter by `isUserModified && x <= existingMaxTime`, sort by
descending `x`, take the head). -/
def lastModifiedPt (l : List Pt) : Option Pt :=
  pickMaxPt (l.filter (fun p => p.mod && decide (p.x ≤ maxX l)))

/-- The extend/truncate loop of `setDuration`: copy a point that sits exactly
on the new grid, otherwise synthesize a baseline point. -/
def durExtend (sig : SigDef) (r newS : ℕ) (existing : List Pt) : List Pt :=
  (List.range (newS + 1)).map (fun i =>
    let t : ℚ := ((i * r : ℕ) : ℚ)
    match existing.find? (fun p => decide (p.x = t)) with
    | some p => p
    | none => ⟨t, sig.dflt, false⟩)

/-- Per-signal body of `setDuration` from `src/state/store.ts`: extend or
truncate the grid, then apply the cascade to points created beyond the old
maximal timestamp. -/
def durData (sig : SigDef) (r newS : ℕ) (existing : List Pt) : List Pt :=
  let newData := durExtend sig r newS existing
  match lastModifiedPt existing with
  | none => newData
  | some lm =>
    if maxX existing < ((newS * r : ℕ) : ℚ) then
      let deltaY := lm.y - sig.dflt
      let hasModifiedAfter := existing.any (fun p => decide (lm.x < p.x) && p.mod)
      if hasModifiedAfter = false ∧ deltaY ≠ 0 then
        newData.map (fun p =>
          if maxX existing < p.x ∧ p.mod = false then
            ⟨p.x, clampQ sig (sig.dflt + deltaY), p.mod⟩
          else p)
      else newData
    else newData

/-- Per-signal body of `setSampleRate` from `src/state/store.ts`: exact-match
copy, else linear interpolation between the nearest neighbours. -/
def rateResample (sig : SigDef) (d r : ℕ) (existing : List Pt) : List Pt :=
  (List.range (gridSamples d r + 1)).map (fun i =>
    let t : ℚ := ((i * r : ℕ) : ℚ)
    match existing.find? (fun p => decide (p.x = t)) with
    | some p => p
    | none =>
      let beforePt := pickMaxPt (existing.filter (fun p => decide (p.x < t)))
      let afterPt := pickMinPt (existing.filter (fun p => decide (t < p.x)))
      match beforePt, afterPt with
      | some b, some a =>
        ⟨t, b.y + (a.y - b.y) * ((t - b.x) / (a.x - b.x)), b.mod || a.mod⟩
      | some b, none => ⟨t, b.y, b.mod⟩
      | none, some a => ⟨t, a.y, a.mod⟩
      | none, none => ⟨t, sig.dflt, false⟩)

/-- Model of `[...controlPoints].sort((a, b) => a.x - b.x)` (stable sort by
ascending time). -/
def sortByX (l : List Pt) : List Pt :=
  l.insertionSort (fun a b => a.x ≤ b.x)

/-- The bracket-searching loop of `interpolateValue`: walk consecutive pairs
and linearly interpolate in the first bracket containing `x`. -/
def interpLoop (x dflt : ℚ) : List Pt → ℚ
  | p1 :: p2 :: rest =>
    if p1.x ≤ x ∧ x ≤ p2.x then
      p1.y + ((x - p1.x) / (p2.x - p1.x)) * (p2.y - p1.y)
    else interpLoop x dflt (p2 :: rest)
  | _ => dflt

/-- `interpolateValue` helper from the control-point store: clamp before the
first and after the last control point, interpolate linearly in between.  The
`[]` case returns the default; the source would fault there and is only ever
called with at least two points. -/
def interpolateValue (x : ℚ) (controlPoints : List Pt) (defaultValue : ℚ) : ℚ :=
  let sorted := sortByX controlPoints
  match sorted with
  | [] => defaultValue
  | first :: rest =>
    if x ≤ first.x then first.y
    else
      let lastPt := (first :: rest).getLast (List.cons_ne_nil first rest)
      if lastPt.x ≤ x then lastPt.y
      else interpLoop x defaultValue (first :: rest)

/-- Dense-data regeneration `regenerateSignalFromControlPoints`: baseline when
no control point exists, a flat line for a single one, interpolation
otherwise. -/
def regenData (sig : SigDef) (d r : ℕ) (controlPoints : List Pt) : List Pt :=
  (List.range (gridSamples d r + 1)).map (fun i =>
    let t : ℚ := ((i * r : ℕ) : ℚ)
    let y : ℚ :=
      match controlPoints with
      | [] => sig.dflt
      | [c] => c.y
      | _ => interpolateValue t controlPoints sig.dflt
    ⟨t, y, false⟩)

/-- The constraining step of `addControlPoint` / `moveControlPoint`: clamp the
time into `[0, duration * 1000]` and the value into `[min, max]`. -/
def clampPoint (sig : SigDef) (d : ℕ) (p : Pt) : Pt :=
  ⟨max 0 (min ((d * 1000 : ℕ) : ℚ) p.x), clampQ sig p.y, p.mod⟩

/-- One signal's slice of the store.  The union of the fields carried by the
store revisions in the repository (`controlPoints` from the control-point
revision; the per-signal `zoom` view state is display-only and omitted). -/
structure SigState where
  id : String
  data : List Pt
  controlPoints : List Pt
  isVisible : Bool
  order : ℕ
deriving DecidableEq, Repr

/-- The `ScenarioStore` aggregate: selected signal keys, per-signal states as
an ordered key/value sequence (JS object insertion order), timing, and the
cascade toggle touched by `importCSV`. -/
structure Store where
  selectedSignals : List String
  signalStates : List (String × SigState)
  duration : ℕ
  sampleRate : ℕ
  globalCascadeEnabled : Bool
deriving DecidableEq, Repr

/-- Lookup `states[signalId]` on the ordered key/value sequence. -/
def lookupSt (states : List (String × SigState)) (k : String) : Option SigState :=
  (states.find? (fun e => decide (e.1 = k))).map (·.2)

/-- In-place update of the entry at key `k` (JS object field assignment). -/
def setSt (states : List (String × SigState)) (k : String) (f : SigState → SigState) :
    List (String × SigState) :=
  states.map (fun e => if e.1 = k then (e.1, f e.2) else e)

/-- Model of `Math.max(...Object.values(states).map(s => s.order), 0)`. -/
def maxOrder (states : List (String × SigState)) : ℕ :=
  states.foldl (fun a e => max a e.2.order) 0

/-- The store's default state (30 minutes at 1 Hz, nothing selected). -/
def initialStore : Store :=
  { selectedSignals := []
  , signalStates := []
  , duration := 30 * 60
  , sampleRate := 1000
  , globalCascadeEnabled := true }

/-- The `initializeSignal` action: create a fresh baseline state unless the
signal already exists. -/
def initSignalStore (k : String) (s : Store) : Store :=
  match lookupSt s.signalStates k with
  | some _ => s
  | none =>
    let nextOrder := maxOrder s.signalStates + 1
    { s with signalStates :=
        s.signalStates ++
          [(k, ⟨k, generateBaselineData k s.duration s.sampleRate, [], true, nextOrder⟩)] }

/-- One iteration of the `signals.forEach` loop inside `setSelectedSignals`:
skip keys that were already selected, re-show a previously created state, or
append a fresh baseline state with the next stacking order. -/
def selectStep (oldSel : List String) (d r : ℕ)
    (acc : List (String × SigState) × ℕ) (k : String) : List (String × SigState) × ℕ :=
  if oldSel.contains k then acc
  else
    match lookupSt acc.1 k with
    | some _ => (setSt acc.1 k (fun st => { st with isVisible := true }), acc.2)
    | none =>
      (acc.1 ++ [(k, ⟨k, generateBaselineData k d r, [], true, acc.2 + 1⟩)], acc.2 + 1)

/-- The `setSelectedSignals` action: create/show the newly selected signals,
then hide the deselected ones while preserving their data. -/
def selectSignalsStore (ks : List String) (s : Store) : Store :=
  let afterAdd :=
    ks.foldl (selectStep s.selectedSignals s.duration s.sampleRate)
      (s.signalStates, maxOrder s.signalStates)
  let afterHide :=
    s.selectedSignals.foldl
      (fun states k =>
        if ks.contains k then states
        else setSt states k (fun st => { st with isVisible := false }))
      afterAdd.1
  { s with selectedSignals := ks, signalStates := afterHide }

/-- The `updateSignalData` action: replace a signal's dense data verbatim
(no clamping, no grid check). -/
def updateSignalDataStore (k : String) (newData : List Pt) (s : Store) : Store :=
  match lookupSt s.signalStates k with
  | none => s
  | some _ =>
    { s with signalStates := setSt s.signalStates k (fun st => { st with data := newData }) }

/-- The `toggleSignalVisibility` action. -/
def toggleVisibilityStore (k : String) (s : Store) : Store :=
  match lookupSt s.signalStates k with
  | none => s
  | some _ =>
    { s with signalStates :=
        setSt s.signalStates k (fun st => { st with isVisible := !st.isVisible }) }

/-- The `setDuration` action: store the new duration, then run the per-signal
extend/truncate-plus-cascade over every known signal. -/
def setDurationStore (seconds : ℕ) (s : Store) : Store :=
  let newS := gridSamples seconds s.sampleRate
  { s with
    duration := seconds
    signalStates :=
      s.signalStates.filterMap (fun e =>
        match findSignal e.1 with
        | none => none
        | some sig => some (e.1, { e.2 with data := durData sig s.sampleRate newS e.2.data })) }

/-- The `setSampleRate` action: store the new rate, then resample every known
signal by exact match or interpolation. -/
def setSampleRateStore (ms : ℕ) (s : Store) : Store :=
  { s with
    sampleRate := ms
    signalStates :=
      s.signalStates.filterMap (fun e =>
        match findSignal e.1 with
        | none => none
        | some sig => some (e.1, { e.2 with data := rateResample sig s.duration ms e.2.data })) }

/-- The `resetSignalToDefault` action: clear control points and regenerate the
baseline; visibility and order are untouched. -/
def resetSignalStore (k : String) (s : Store) : Store :=
  match lookupSt s.signalStates k with
  | none => s
  | some _ =>
    { s with signalStates :=
        setSt s.signalStates k (fun st =>
          { st with
            controlPoints := []
            data := generateBaselineData k s.duration s.sampleRate }) }

/-- The `regenerateSignalFromControlPoints` action. -/
def regenerateStore (k : String) (s : Store) : Store :=
  match lookupSt s.signalStates k, findSignal k with
  | some _, some sig =>
    { s with signalStates :=
        setSt s.signalStates k (fun st =>
          { st with data := regenData sig s.duration s.sampleRate st.controlPoints }) }
  | _, _ => s

/-- The `addControlPoint` action: clamp the point, insert it in chronological
order, and regenerate the dense data. -/
def addControlPointStore (k : String) (p : Pt) (s : Store) : Store :=
  match lookupSt s.signalStates k, findSignal k with
  | some _, some sig =>
    let cp := clampPoint sig s.duration p
    let s1 :=
      { s with signalStates :=
          setSt s.signalStates k (fun st =>
            { st with controlPoints := sortByX (st.controlPoints ++ [cp]) }) }
    regenerateStore k s1
  | _, _ => s

/-- The `moveControlPoint` action: replace the indexed control point with the
clamped new one, re-sort, regenerate. -/
def moveControlPointStore (k : String) (i : ℕ) (p : Pt) (s : Store) : Store :=
  match lookupSt s.signalStates k, findSignal k with
  | some st, some sig =>
    if i < st.controlPoints.length then
      let cp := clampPoint sig s.duration p
      let s1 :=
        { s with signalStates :=
            setSt s.signalStates k (fun st' =>
              { st' with controlPoints := sortByX (st'.controlPoints.set i cp) }) }
      regenerateStore k s1
    else s
  | _, _ => s

/-- The `deleteControlPoint` action: drop the indexed control point and
regenerate. -/
def deleteControlPointStore (k : String) (i : ℕ) (s : Store) : Store :=
  match lookupSt s.signalStates k with
  | some st =>
    if i < st.controlPoints.length then
      let s1 :=
        { s with signalStates :=
            setSt s.signalStates k (fun st' =>
              { st' with controlPoints := st'.controlPoints.eraseIdx i }) }
      regenerateStore k s1
    else s
  | none => s

/-- One parsed CSV record as produced by `Papa.parse(file, { header: true })`:
header fields paired with the row's cell texts, in column order. -/
abbrev Row := List (String × String)

/-- Model of `row[key]` on a parsed record (rows are uniform, so the default
for an absent key is never exercised by well-formed inputs). -/
def rowGet (row : Row) (k : String) : String :=
  ((row.find? (fun e => decide (e.1 = k))).map (·.2)).getD ""

/-- Model of `Object.keys(data[0])`. -/
def rowKeys (row : Row) : List String := row.map (·.1)

/-- The time-column detector: header contains `time` or `milliseconds`
case-insensitively. -/
def isTimeLike (k : String) : Bool :=
  strIncludes (toLowerS k.data) "time".data || strIncludes (toLowerS k.data) "milliseconds".data

/-- The signal-column pre-filter inside `importCSV`: anything whose header
contains `time`, `clock` or `milliseconds` case-insensitively is excluded. -/
def isTimeClockLike (k : String) : Bool :=
  strIncludes (toLowerS k.data) "time".data || strIncludes (toLowerS k.data) "clock".data ||
    strIncludes (toLowerS k.data) "milliseconds".data

/-- One time cell parsed exactly as by `importCSV`: `HH:MM:SS_mmm`, legacy
`MM:SS`, or a bare number; `none` models `NaN`.  The per-signal second pass
differs syntactically (it applies `Number` to a string that still contains
`:`) but computes the same value, so both passes share this function. -/
def parseTimeCell (timeStr : String) : Option ℚ :=
  let t := timeStr.data
  if strIncludes t [':'] then
    match splitOnChar ':' t with
    | [p0, p1, p2] =>
      match parseNum p0, parseNum p1 with
      | some hours, some minutes =>
        let sub := (splitOnChar '_' p2).map parseNum
        match sub with
        | [] => none
        | secOpt :: rest =>
          match secOpt with
          | none => none
          | some seconds =>
            let ms : ℚ :=
              match rest with
              | msOpt :: _ => msOpt.getD 0
              | [] => 0
            some ((hours * 3600 + minutes * 60 + seconds) * 1000 + ms)
      | _, _ => none
    | [p0, p1] =>
      match parseNum p0, parseNum p1 with
      | some minutes, some seconds => some ((minutes * 60 + seconds) * 1000)
      | _, _ => none
    | _ => none
  else parseNum t

/-- First matching known signal key for a CSV column, by case-insensitive
exact name equality (`availableSignals.find(...)`). -/
def matchKey (c : String) : Option String :=
  (SIGNALS.find? (fun e => decide (toLowerS e.1.data = toLowerS c.data))).map (·.1)

/-- The `signalMapping` record of `importCSV`: CSV column ↦ matched signal
key, over the columns surviving the time/clock/milliseconds pre-filter. -/
def signalMappingOf (keys : List String) : List (String × String) :=
  (keys.filter (fun k => !isTimeClockLike k)).filterMap
    (fun c => (matchKey c).map (fun m => (c, m)))

/-- Model of `Object.keys(signalMapping).find(k => signalMapping[k] === signalId)!`. -/
def columnFor (mapping : List (String × String)) (signalId : String) : String :=
  ((mapping.find? (fun e => decide (e.2 = signalId))).map (·.1)).getD ""

/-- The per-signal data built by `importCSV`: parse time and value from every
row, clamp the value, drop `NaN`s, sort by time. -/
def signalDataOf (data : List Row) (timeColumn : String) (sig : SigDef) (csvColumn : String) :
    List Pt :=
  sortByX (data.filterMap (fun row => do
    let x ← parseTimeCell (rowGet row timeColumn)
    let v ← parseNum (rowGet row csvColumn).data
    pure ⟨x, clampQ sig v, false⟩))

/-- Record assignment `newSignalStates[signalId] = v`: replace in place or
append. -/
def upsertState (l : List (String × SigState)) (k : String) (v : SigState) :
    List (String × SigState) :=
  if (lookupSt l k).isSome then setSt l k (fun _ => v) else l ++ [(k, v)]

/-- The `matchedSignals.forEach` loop of `importCSV` building the new signal
states (a state is only created when at least one row parsed). -/
def buildStates (data : List Row) (timeColumn : String) (mapping : List (String × String))
    (startOrder : ℕ) : List (String × SigState) :=
  ((mapping.map (·.2)).foldl
    (fun acc signalId =>
      match findSignal signalId with
      | none => acc
      | some sig =>
        let sd := signalDataOf data timeColumn sig (columnFor mapping signalId)
        if 0 < sd.length then
          (upsertState acc.1 signalId ⟨signalId, sd, [], true, acc.2 + 1⟩, acc.2 + 1)
        else acc)
    ([], startOrder)).1

/-- Model of the object spread `{ ...currentStates, ...newSignalStates }`:
existing keys keep their position and take the overriding value, new keys are
appended in order. -/
def objMerge (a b : List (String × SigState)) : List (String × SigState) :=
  a.map (fun e => (e.1, (lookupSt b e.1).getD e.2)) ++
    b.filter (fun e => (lookupSt a e.1).isNone)

/-- Model of ascending `timeValues.sort((a, b) => a - b)`. -/
def sortQ (l : List ℚ) : List ℚ := l.insertionSort (fun a b => a ≤ b)

/-- The `importCSV` action over already-parsed records, threading the store
through the same `set` calls as the source; the first component is the
rejection message (`none` on success), the second the store after the call.
Every rejection happens before the first `set`, so rejected runs return the
input store unchanged. -/
def importCSVRun (s : Store) (data : List Row) : Option String × Store :=
  match data with
  | [] => (some "CSV file is empty", s)
  | r0 :: _ =>
    let keys := rowKeys r0
    match keys.find? isTimeLike with
    | none => (some "No time column found in CSV", s)
    | some timeColumn =>
      let timeValues := sortQ (data.filterMap (fun row => parseTimeCell (rowGet row timeColumn)))
      match timeValues with
      | [] => (some "No valid time values found", s)
      | t0 :: ts =>
        let maxTime := ts.foldl max t0
        let minTime := ts.foldl min t0
        let newDuration : ℕ := (⌈(maxTime - minTime) / 1000⌉).toNat
        let avgSampleRate : ℕ :=
          if 1 < (t0 :: ts).length then
            (round ((maxTime - minTime) / (((t0 :: ts).length - 1 : ℕ) : ℚ))).toNat
          else 1000
        let mapping := signalMappingOf keys
        match mapping.map (·.2) with
        | [] => (some "No matching signal columns found", s)
        | _ :: _ =>
          let s1 :=
            { s with
              duration := newDuration
              sampleRate := max 1000 avgSampleRate
              globalCascadeEnabled := false }
          let newStates := buildStates data timeColumn mapping (maxOrder s1.signalStates)
          (none,
            { s1 with
              selectedSignals := mapping.map (·.2)
              signalStates := objMerge s1.signalStates newStates })

/-- `formatTime` from `src/data/columns.ts`: render milliseconds as
`HH:MM:SS_mmm`. -/
def formatTime (milliseconds : ℕ) : String :=
  let totalSeconds := milliseconds / 1000
  let hours := totalSeconds / 3600
  let minutes := totalSeconds % 3600 / 60
  let seconds := totalSeconds % 60
  let ms := milliseconds % 1000
  ⟨padStart (natRepr hours) 2 '0' ++ ':' :: padStart (natRepr minutes) 2 '0' ++
      ':' :: padStart (natRepr seconds) 2 '0' ++ '_' :: padStart (natRepr ms) 3 '0'⟩

/-- `formatSignalValue` from `src/lib/csv.ts`: integer families, `MAC` with
two decimals, one decimal otherwise. -/
def formatSignalValue (value : ℚ) (signalId : String) : String :=
  let id := signalId.data
  if strIncludes id "HR".data || strIncludes id "RR".data || strIncludes id "Pulse".data ||
      strIncludes id "SpO2".data || strIncludes id "BIS".data || strIncludes id "SQI".data ||
      strIncludes id "EMG".data || strIncludes id "Set RR".data then
    ⟨intStr (mathRound value)⟩
  else if strIncludes id "MAC".data then ⟨toFixedQ value 2⟩
  else ⟨toFixedQ value 1⟩

/-! ## Shared invariants and helper lemmas -/

/-- The grid invariant for one dense data array at a given duration (seconds)
and sample rate (milliseconds): the timestamps are exactly
`0, r, 2r, …, gridSamples d r * r`, hence
`data.length = floor(d * 1000 / r) + 1` and `data[i].x = i * r`. -/
def gridInvData (d r : ℕ) (l : List Pt) : Prop :=
  l.map Pt.x = (List.range (gridSamples d r + 1)).map (fun i => ((i * r : ℕ) : ℚ))

/-- The store-wide grid invariant, over every known signal's state. -/
def storeGridInv (s : Store) : Prop :=
  ∀ e ∈ s.signalStates, (findSignal e.1).isSome = true →
    gridInvData s.duration s.sampleRate e.2.data

/-- Bounds predicate: `value ∈ [definition.min, definition.max]`. -/
def inB (sig : SigDef) (v : ℚ) : Prop := sig.min ≤ v ∧ v ≤ sig.max

/-- The store-wide bounds invariant (dense data and control points). -/
def storeBounds (s : Store) : Prop :=
  ∀ e ∈ s.signalStates, ∀ sig, findSignal e.1 = some sig →
    (∀ p ∈ e.2.data, inB sig p.y) ∧ (∀ p ∈ e.2.controlPoints, inB sig p.y)

instance gridInvDataDecidable (d r : ℕ) (l : List Pt) : Decidable (gridInvData d r l) :=
  inferInstanceAs (Decidable (_ = _))

instance storeGridInvDecidable (s : Store) : Decidable (storeGridInv s) :=
  inferInstanceAs (Decidable (∀ _ ∈ _, _))

instance inBDecidable (sig : SigDef) (v : ℚ) : Decidable (inB sig v) :=
  inferInstanceAs (Decidable (_ ∧ _))

instance storeBoundsDecidable (s : Store) : Decidable (storeBounds s) :=
  inferInstanceAs (Decidable (∀ _ ∈ _, _))

theorem gridInvData_length {d r : ℕ} {l : List Pt} (h : gridInvData d r l) :
    l.length = gridSamples d r + 1 := by
  have := congrArg List.length h
  simpa using this

theorem gridInvData_getElem {d r : ℕ} {l : List Pt} (h : gridInvData d r l)
    (i : ℕ) (hi : i < l.length) : (l[i]).x = ((i * r : ℕ) : ℚ) := by
  have hlen := gridInvData_length h
  have hi' : i < gridSamples d r + 1 := by omega
  have := congrArg (fun t => t[i]?) h
  simp only [List.getElem?_map, List.getElem?_range hi'] at this
  rw [List.getElem?_eq_getElem hi] at this
  simpa using this

theorem gridInvData_of_forall {d r : ℕ} {l : List Pt}
    (hlen : l.length = gridSamples d r + 1)
    (hx : ∀ i, (hi : i < l.length) → (l[i]).x = ((i * r : ℕ) : ℚ)) :
    gridInvData d r l := by
  apply List.ext_getElem?
  intro n
  rcases Nat.lt_or_ge n l.length with hn | hn
  · have hn' : n < gridSamples d r + 1 := by omega
    simp only [List.getElem?_map, List.getElem?_range hn', List.getElem?_eq_getElem hn]
    simp [hx n hn]
  · have h1 : (l.map Pt.x)[n]? = none := by
      simp [List.getElem?_eq_none_iff]
      omega
    have h2 : ((List.range (gridSamples d r + 1)).map (fun i => ((i * r : ℕ) : ℚ)))[n]? = none := by
      simp [List.getElem?_eq_none_iff]
      omega
    rw [h1, h2]

/-- Finding an element of a list whose indexed `x` values are given by an
injective enumeration returns exactly the indexed element. -/
theorem find_at_index (l : List Pt) (g : ℕ → ℚ)
    (hg : ∀ i j, i < l.length → j < l.length → g i = g j → i = j)
    (hx : ∀ i, (hi : i < l.length) → (l[i]).x = g i)
    (j : ℕ) (hj : j < l.length) :
    l.find? (fun p => decide (p.x = g j)) = some (l[j]) := by
  induction l generalizing g j with
  | nil => simp at hj
  | cons a t ih =>
    have ha : a.x = g 0 := by
      have := hx 0 (by simp)
      simpa using this
    cases j with
    | zero =>
      have : decide (a.x = g 0) = true := by simp [ha]
      simp [List.find?, this]
    | succ k =>
      have hne : a.x ≠ g (k + 1) := by
        rw [ha]
        intro hc
        have := hg 0 (k + 1) (by simp) hj hc
        omega
      have hcond : decide (a.x = g (k + 1)) = false := by simpa using hne
      have hk : k < t.length := by simpa using hj
      have := ih (fun i => g (i + 1))
        (fun i j hi hj' hij => by
          have := hg (i + 1) (j + 1) (by simpa using hi) (by simpa using hj') hij
          omega)
        (fun i hi => by
          have := hx (i + 1) (by simpa using hi)
          simpa using this)
        k hk
      simp only [List.find?, hcond]
      rw [this]
      simp

theorem find_x_none (l : List Pt) (t : ℚ) (h : ∀ p ∈ l, p.x ≠ t) :
    l.find? (fun p => decide (p.x = t)) = none := by
  rw [List.find?_eq_none]
  intro p hp
  simpa using h p hp

theorem le_foldl_max (l : List Pt) (a : ℚ) :
    a ≤ l.foldl (fun b q => max b q.x) a := by
  induction l generalizing a with
  | nil => simp
  | cons p ps ih => exact le_trans (le_max_left a p.x) (ih (max a p.x))

theorem foldl_max_le (l : List Pt) (a c : ℚ) (ha : a ≤ c) (h : ∀ p ∈ l, p.x ≤ c) :
    l.foldl (fun b q => max b q.x) a ≤ c := by
  induction l generalizing a with
  | nil => simpa
  | cons p ps ih =>
    exact ih (max a p.x) (max_le ha (h p (by simp))) (fun q hq => h q (by simp [hq]))

theorem mem_le_foldl_max (l : List Pt) (a : ℚ) (p : Pt) (hp : p ∈ l) :
    p.x ≤ l.foldl (fun b q => max b q.x) a := by
  induction l generalizing a with
  | nil => simp at hp
  | cons q qs ih =>
    rcases List.mem_cons.1 hp with rfl | hp'
    · exact le_trans (le_max_right a p.x) (le_foldl_max qs (max a p.x))
    · exact ih (max a q.x) hp'

theorem maxX_ge {l : List Pt} {p : Pt} (hp : p ∈ l) : p.x ≤ maxX l := by
  cases l with
  | nil => simp at hp
  | cons q qs =>
    rcases List.mem_cons.1 hp with rfl | hp'
    · exact le_foldl_max qs p.x
    · exact mem_le_foldl_max qs q.x p hp'

theorem maxX_le {l : List Pt} (hl : l ≠ []) {c : ℚ} (h : ∀ p ∈ l, p.x ≤ c) :
    maxX l ≤ c := by
  cases l with
  | nil => exact absurd rfl hl
  | cons q qs =>
    exact foldl_max_le qs q.x c (h q (by simp)) (fun p hp => h p (by simp [hp]))

/-- Under the grid invariant the maximal timestamp is the last grid tick. -/
theorem gridInv_maxX {d r : ℕ} {l : List Pt} (h : gridInvData d r l) :
    maxX l = ((gridSamples d r * r : ℕ) : ℚ) := by
  have hlen := gridInvData_length h
  have hne : l ≠ [] := by
    intro hc
    rw [hc] at hlen
    simp at hlen
  apply le_antisymm
  · apply maxX_le hne
    intro p hp
    obtain ⟨i, hi, rfl⟩ := List.getElem_of_mem hp
    rw [gridInvData_getElem h i hi]
    have : i * r ≤ gridSamples d r * r := Nat.mul_le_mul_right r (by omega)
    exact_mod_cast this
  · have hS : gridSamples d r < l.length := by omega
    have := gridInvData_getElem h (gridSamples d r) hS
    rw [← this]
    exact maxX_ge (List.getElem_mem hS)

theorem pickFold_mem (l : List Pt) (acc : Option Pt) (q : Pt)
    (f : Option Pt → Pt → Option Pt)
    (hf : ∀ a p, f a p = some p ∨ (∃ b, a = some b ∧ f a p = some b))
    (h : l.foldl f acc = some q) : q ∈ l ∨ acc = some q := by
  induction l generalizing acc with
  | nil => exact Or.inr h
  | cons p ps ih =>
    rcases ih (f acc p) h with hq | hq
    · exact Or.inl (by simp [hq])
    · rcases hf acc p with h1 | ⟨b, hb, h1⟩
      · rw [h1] at hq
        exact Or.inl (by simp [Option.some.inj hq])
      · rw [h1] at hq
        rw [hb, Option.some.inj hq] at *
        exact Or.inr hb

theorem pickMaxPt_mem {l : List Pt} {q : Pt} (h : pickMaxPt l = some q) : q ∈ l := by
  have := pickFold_mem l none q _
    (fun a p => by
      cases a with
      | none => exact Or.inl rfl
      | some b =>
        by_cases hb : b.x < p.x
        · simp [hb]
        · exact Or.inr ⟨b, rfl, by simp [hb]⟩)
    h
  rcases this with h1 | h1
  · exact h1
  · simp at h1

theorem pickMinPt_mem {l : List Pt} {q : Pt} (h : pickMinPt l = some q) : q ∈ l := by
  have := pickFold_mem l none q _
    (fun a p => by
      cases a with
      | none => exact Or.inl rfl
      | some b =>
        by_cases hb : p.x < b.x
        · simp [hb]
        · exact Or.inr ⟨b, rfl, by simp [hb]⟩)
    h
  rcases this with h1 | h1
  · exact h1
  · simp at h1

/-! ## Grid-invariant producers: every resampling transform emits the grid -/

theorem durExtend_x (sig : SigDef) (r newS : ℕ) (l : List Pt) :
    (durExtend sig r newS l).map Pt.x =
      (List.range (newS + 1)).map (fun i => ((i * r : ℕ) : ℚ)) := by
  unfold durExtend
  rw [List.map_map]
  apply List.map_congr_left
  intro i _
  simp only [Function.comp]
  cases h : l.find? (fun p => decide (p.x = ((i * r : ℕ) : ℚ))) with
  | none => rfl
  | some p =>
    have := List.find?_some h
    simpa using this

theorem durData_x (sig : SigDef) (r newS : ℕ) (l : List Pt) :
    (durData sig r newS l).map Pt.x =
      (List.range (newS + 1)).map (fun i => ((i * r : ℕ) : ℚ)) := by
  rw [← durExtend_x sig r newS l]
  cases h : lastModifiedPt l with
  | none => simp only [durData, h]
  | some lm =>
    simp only [durData, h]
    split
    · split
      · rw [List.map_map]
        apply List.map_congr_left
        intro p _
        simp only [Function.comp]
        split
        · rfl
        · rfl
      · rfl
    · rfl

theorem rateResample_x (sig : SigDef) (d r : ℕ) (l : List Pt) :
    (rateResample sig d r l).map Pt.x =
      (List.range (gridSamples d r + 1)).map (fun i => ((i * r : ℕ) : ℚ)) := by
  unfold rateResample
  rw [List.map_map]
  apply List.map_congr_left
  intro i _
  simp only [Function.comp]
  cases h : l.find? (fun p => decide (p.x = ((i * r : ℕ) : ℚ))) with
  | none =>
    cases pickMaxPt (l.filter fun p => decide (p.x < ((i * r : ℕ) : ℚ))) with
    | none =>
      cases pickMinPt (l.filter fun p => decide (((i * r : ℕ) : ℚ) < p.x)) with
      | none => rfl
      | some a => rfl
    | some b =>
      cases pickMinPt (l.filter fun p => decide (((i * r : ℕ) : ℚ) < p.x)) with
      | none => rfl
      | some a => rfl
  | some p =>
    have := List.find?_some h
    simpa using this

theorem regenData_x (sig : SigDef) (d r : ℕ) (cps : List Pt) :
    (regenData sig d r cps).map Pt.x =
      (List.range (gridSamples d r + 1)).map (fun i => ((i * r : ℕ) : ℚ)) := by
  unfold regenData
  rw [List.map_map]
  apply List.map_congr_left
  intro i _
  rfl

theorem generateBaselineData_x (k : String) (d r : ℕ) (sig : SigDef)
    (h : findSignal k = some sig) :
    (generateBaselineData k d r).map Pt.x =
      (List.range (gridSamples d r + 1)).map (fun i => ((i * r : ℕ) : ℚ)) := by
  unfold generateBaselineData
  rw [h, List.map_map]
  apply List.map_congr_left
  intro i _
  rfl

theorem durData_gridInv (sig : SigDef) (r d2 : ℕ) (l : List Pt) :
    gridInvData d2 r (durData sig r (gridSamples d2 r) l) :=
  durData_x sig r (gridSamples d2 r) l

theorem rateResample_gridInv (sig : SigDef) (d r : ℕ) (l : List Pt) :
    gridInvData d r (rateResample sig d r l) :=
  rateResample_x sig d r l

theorem regenData_gridInv (sig : SigDef) (d r : ℕ) (cps : List Pt) :
    gridInvData d r (regenData sig d r cps) :=
  regenData_x sig d r cps

theorem generateBaselineData_gridInv (k : String) (d r : ℕ) (sig : SigDef)
    (h : findSignal k = some sig) :
    gridInvData d r (generateBaselineData k d r) :=
  generateBaselineData_x k d r sig h

/-! ## setDuration: copy behaviour and cascade -/

theorem durExtend_getElem (sig : SigDef) (r newS : ℕ) (l : List Pt) (i : ℕ)
    (hi : i < newS + 1) :
    (durExtend sig r newS l)[i]? =
      some (match l.find? (fun p => decide (p.x = ((i * r : ℕ) : ℚ))) with
            | some p => p
            | none => ⟨((i * r : ℕ) : ℚ), sig.dflt, false⟩) := by
  simp only [durExtend, List.getElem?_map, List.getElem?_range hi, Option.map_some']

theorem durData_eq_extend {sig : SigDef} {r newS : ℕ} {l : List Pt}
    (h : ¬ maxX l < ((newS * r : ℕ) : ℚ)) :
    durData sig r newS l = durExtend sig r newS l := by
  cases hlm : lastModifiedPt l with
  | none => simp only [durData, hlm]
  | some lm =>
    simp only [durData, hlm]
    rw [if_neg h]

theorem cast_mul_inj (r : ℕ) (hr : 0 < r) (a b : ℕ)
    (hab : ((a * r : ℕ) : ℚ) = ((b * r : ℕ) : ℚ)) : a = b := by
  have : a * r = b * r := by exact_mod_cast hab
  exact Nat.eq_of_mul_eq_mul_right hr this

/-- A duration change copies every surviving exact-timestamp sample verbatim
(value and `isUserModified` flag): index `i` of the output equals index `i` of
the input whenever the timestamp `i * r` exists on both grids. -/
theorem durData_getElem_copy (sig : SigDef) {d : ℕ} (r newS : ℕ) {data : List Pt}
    (hr : 0 < r) (hgrid : gridInvData d r data) (i : ℕ)
    (hiN : i < newS + 1) (hiO : i < gridSamples d r + 1) :
    (durData sig r newS data)[i]? = data[i]? := by
  have hlen := gridInvData_length hgrid
  have hiL : i < data.length := by omega
  have hfind := find_at_index data (fun j => ((j * r : ℕ) : ℚ))
    (fun a b _ _ hab => cast_mul_inj r hr a b hab)
    (fun j hj => gridInvData_getElem hgrid j hj) i hiL
  have hext : (durExtend sig r newS data)[i]? = some (data[i]) := by
    rw [durExtend_getElem sig r newS data i hiN, hfind]
  have hxle : (data[i]).x ≤ maxX data := maxX_ge (List.getElem_mem hiL)
  have hgoal : data[i]? = some (data[i]) := List.getElem?_eq_getElem hiL
  cases h : lastModifiedPt data with
  | none =>
    simp only [durData, h]
    rw [hext, hgoal]
  | some lm =>
    simp only [durData, h]
    split
    · split
      · rw [List.getElem?_map, hext, Option.map_some', hgoal]
        congr 1
        split
        · next hcond => exact absurd hcond.1 (not_lt.2 hxle)
        · rfl
      · rw [hext, hgoal]
    · rw [hext, hgoal]

/-- Claim C7: a duration increase followed by the inverse decrease restores
the data array exactly, and any duration change alone copies every surviving
sample (value and flag) unchanged. -/
theorem setDuration_roundtrip_preserves_samples (sig : SigDef) (r d : ℕ) (data : List Pt)
    (hr : 0 < r) (hgrid : gridInvData d r data) :
    (∀ d2, d < d2 →
        durData sig r (gridSamples d r) (durData sig r (gridSamples d2 r) data) = data)
    ∧ (∀ d2 i, i < gridSamples d2 r + 1 → i < gridSamples d r + 1 →
        (durData sig r (gridSamples d2 r) data)[i]? = data[i]?) := by
  have hlen := gridInvData_length hgrid
  constructor
  · intro d2 hd2
    have hSS : gridSamples d r ≤ gridSamples d2 r :=
      Nat.div_le_div_right (Nat.mul_le_mul_right 1000 (by omega))
    have hgrid2 : gridInvData d2 r (durData sig r (gridSamples d2 r) data) :=
      durData_gridInv sig r d2 data
    have hlen2 := gridInvData_length hgrid2
    have hmax2 : maxX (durData sig r (gridSamples d2 r) data) =
        ((gridSamples d2 r * r : ℕ) : ℚ) := gridInv_maxX hgrid2
    have hnotlt : ¬ maxX (durData sig r (gridSamples d2 r) data) <
        ((gridSamples d r * r : ℕ) : ℚ) := by
      rw [hmax2]
      have : gridSamples d r * r ≤ gridSamples d2 r * r := Nat.mul_le_mul_right r hSS
      exact not_lt.2 (by exact_mod_cast this)
    rw [durData_eq_extend hnotlt]
    apply List.ext_getElem?
    intro n
    rcases Nat.lt_or_ge n (gridSamples d r + 1) with hn | hn
    · rw [durExtend_getElem sig r _ _ n hn]
      have hnd2 : n < (durData sig r (gridSamples d2 r) data).length := by omega
      have hfind2 := find_at_index (durData sig r (gridSamples d2 r) data)
        (fun j => ((j * r : ℕ) : ℚ))
        (fun a b _ _ hab => cast_mul_inj r hr a b hab)
        (fun j hj => gridInvData_getElem hgrid2 j hj) n hnd2
      rw [hfind2]
      have hcopy2 : (durData sig r (gridSamples d2 r) data)[n]? = data[n]? :=
        durData_getElem_copy sig r (gridSamples d2 r) hr hgrid n (by omega) hn
      rw [← hcopy2]
      exact (List.getElem?_eq_getElem hnd2).symm
    · have h1 : (durExtend sig r (gridSamples d r) (durData sig r (gridSamples d2 r) data))[n]? = none := by
        rw [List.getElem?_eq_none_iff]
        unfold durExtend
        simp
        omega
      have h2 : data[n]? = none := by
        rw [List.getElem?_eq_none_iff]
        omega
      rw [h1, h2]
  · intro d2 i h1 h2
    exact durData_getElem_copy sig r (gridSamples d2 r) hr hgrid i h1 h2

theorem lastModifiedPt_of_single {l : List Pt} {m : Pt}
    (h : l.filter (fun p => p.mod) = [m]) : lastModifiedPt l = some m := by
  unfold lastModifiedPt
  have hc : ∀ p ∈ l, (p.mod && decide (p.x ≤ maxX l)) = p.mod := by
    intro p hp
    have := maxX_ge hp
    simp [this]
  rw [List.filter_congr hc, h]
  rfl

/-- Claim C3: with the grid invariant and exactly one user-modified sample,
increasing the duration fills every new grid slot beyond the previous maximal
timestamp with `clamp(default + (lastModified.value - default))`, flagged
unmodified. -/
theorem setDuration_cascade_fills_new_samples (sig : SigDef) (r d d2 : ℕ)
    (data : List Pt) (m : Pt)
    (_hgrid : gridInvData d r data)
    (hone : data.filter (fun p => p.mod) = [m])
    (hdef : sig.min ≤ sig.dflt ∧ sig.dflt ≤ sig.max)
    (_hd : d < d2)
    (i : ℕ) (hi : i < gridSamples d2 r + 1)
    (hbeyond : maxX data < ((i * r : ℕ) : ℚ)) :
    (durData sig r (gridSamples d2 r) data)[i]? =
      some ⟨((i * r : ℕ) : ℚ), clampQ sig (sig.dflt + (m.y - sig.dflt)), false⟩ := by
  have hlm := lastModifiedPt_of_single hone
  have hfind : data.find? (fun p => decide (p.x = ((i * r : ℕ) : ℚ))) = none := by
    apply find_x_none
    intro p hp hc
    have hle := maxX_ge hp
    rw [hc] at hle
    exact absurd hbeyond (not_lt.2 hle)
  have hext : (durExtend sig r (gridSamples d2 r) data)[i]? =
      some ⟨((i * r : ℕ) : ℚ), sig.dflt, false⟩ := by
    rw [durExtend_getElem sig r _ data i hi, hfind]
  have hcond : maxX data < ((gridSamples d2 r * r : ℕ) : ℚ) := by
    apply lt_of_lt_of_le hbeyond
    have : i * r ≤ gridSamples d2 r * r := Nat.mul_le_mul_right r (by omega)
    exact_mod_cast this
  have hafter : (data.any fun p => decide (m.x < p.x) && p.mod) = false := by
    rw [List.any_eq_false]
    intro p hp
    simp only [Bool.and_eq_true, decide_eq_true_eq, not_and]
    intro hx hmod
    have hpf : p ∈ data.filter (fun p => p.mod) := List.mem_filter.2 ⟨hp, hmod⟩
    rw [hone] at hpf
    have hpm : p = m := by simpa using hpf
    rw [hpm] at hx
    exact lt_irrefl _ hx
  simp only [durData, hlm]
  rw [if_pos hcond]
  by_cases hdelta : m.y - sig.dflt = 0
  · rw [if_neg (by simp [hdelta])]
    rw [hext]
    have hy : m.y = sig.dflt := by linarith
    have hclamp : clampQ sig (sig.dflt + (m.y - sig.dflt)) = sig.dflt := by
      rw [hy]
      simp only [sub_self, add_zero, clampQ]
      rw [min_eq_right hdef.2, max_eq_right hdef.1]
    rw [hclamp]
  · rw [if_pos ⟨hafter, hdelta⟩]
    rw [List.getElem?_map, hext, Option.map_some']
    congr 1
    rw [if_pos ⟨hbeyond, rfl⟩]

/-! ## setSampleRate: exact-match short-circuit and round trips -/

theorem rateResample_getElem_exact (sig : SigDef) (d r : ℕ) (l : List Pt) (i : ℕ)
    (hi : i < gridSamples d r + 1) {p : Pt}
    (hfind : l.find? (fun q => decide (q.x = ((i * r : ℕ) : ℚ))) = some p) :
    (rateResample sig d r l)[i]? = some p := by
  simp only [rateResample, List.getElem?_map, List.getElem?_range hi, Option.map_some']
  rw [hfind]

/-- Claim C6 (amended): the sample-rate round trip `r → r2 → r` restores every
original sample exactly whenever `r2` divides `r`, i.e. whenever every
original grid timestamp also lies on the intermediate grid. -/
theorem sampleRate_roundtrip_of_divides (sig : SigDef) (d r r2 : ℕ) (data : List Pt)
    (hr : 0 < r) (hr2 : 0 < r2) (hdvd : r2 ∣ r) (hgrid : gridInvData d r data)
    (i : ℕ) (hi : i < gridSamples d r + 1) :
    (rateResample sig d r (rateResample sig d r2 data))[i]? = data[i]? := by
  obtain ⟨k, hk⟩ := hdvd
  have hlen := gridInvData_length hgrid
  have hiL : i < data.length := by omega
  have hgrid2 : gridInvData d r2 (rateResample sig d r2 data) :=
    rateResample_gridInv sig d r2 data
  have hlen2 := gridInvData_length hgrid2
  have hik : i * k * r2 = i * r := by rw [hk]; ring
  have hcast : ((i * k * r2 : ℕ) : ℚ) = ((i * r : ℕ) : ℚ) := by rw [hik]
  have hjle : i * k < gridSamples d r2 + 1 := by
    have h1 : i ≤ d * 1000 / r := by
      have := hi
      unfold gridSamples at this
      omega
    have h2 : i * r ≤ d * 1000 := (Nat.le_div_iff_mul_le hr).1 h1
    have h3 : i * k * r2 ≤ d * 1000 := by rw [hik]; exact h2
    have h4 : i * k ≤ d * 1000 / r2 := (Nat.le_div_iff_mul_le hr2).2 h3
    unfold gridSamples
    omega
  have hjL : i * k < (rateResample sig d r2 data).length := by omega
  have hfind1 := find_at_index data (fun j => ((j * r : ℕ) : ℚ))
    (fun a b _ _ hab => cast_mul_inj r hr a b hab)
    (fun j hj => gridInvData_getElem hgrid j hj) i hiL
  have hinner : (rateResample sig d r2 data)[i * k]? = some (data[i]) := by
    apply rateResample_getElem_exact sig d r2 data (i * k) hjle
    rw [hcast]
    exact hfind1
  have hinnerElem : (rateResample sig d r2 data)[i * k] = data[i] := by
    have h := List.getElem?_eq_getElem hjL
    rw [hinner] at h
    exact (Option.some.inj h).symm
  have hfind2 := find_at_index (rateResample sig d r2 data) (fun j => ((j * r2 : ℕ) : ℚ))
    (fun a b _ _ hab => cast_mul_inj r2 hr2 a b hab)
    (fun j hj => gridInvData_getElem hgrid2 j hj) (i * k) hjL
  rw [hcast] at hfind2
  rw [hinnerElem] at hfind2
  rw [List.getElem?_eq_getElem hiL]
  exact rateResample_getElem_exact sig d r _ i hi hfind2

/-- The HR signal definition (`SIGNALS["HR"]`). -/
def hrSig : SigDef :=
  { unit := "bpm", min := 0, max := 220, dflt := 70
  , step := some 1, softLow := some 60, softHigh := some 80 }

/-- A grid-invariant HR data array at 2 s / 1000 ms with one user bump. -/
def c6Data : List Pt := [⟨0, 70, false⟩, ⟨1000, 90, true⟩, ⟨2000, 70, false⟩]

/-- Claim C6 counterexample: changing the rate from 1000 ms to 2000 ms and
back loses the user's value 90 at t = 1000 ms — the intermediate grid has no
sample there, so the way back interpolates 70 between the neighbours.  The
round trip therefore does not reproduce original values for all rate pairs. -/
theorem sampleRate_roundtrip_fails :
    gridInvData 2 1000 c6Data ∧
    c6Data[1]? = some ⟨1000, 90, true⟩ ∧
    (rateResample hrSig 2 1000 (rateResample hrSig 2 2000 c6Data))[1]? =
      some ⟨1000, 70, false⟩ := by decide

/-- A grid-invariant HR data array at 2 s / 2000 ms. -/
def c6wData : List Pt := [⟨0, 70, false⟩, ⟨2000, 90, true⟩]

theorem sampleRate_roundtrip_of_divides_witness :
    (1000 ∣ 2000) ∧
    (rateResample hrSig 2 2000 (rateResample hrSig 2 1000 c6wData))[1]? = c6wData[1]? ∧
    c6wData[1]? = some ⟨2000, 90, true⟩ :=
  ⟨by decide,
   sampleRate_roundtrip_of_divides hrSig 2 2000 1000 c6wData (by decide) (by decide)
     (by decide) (by decide) 1 (by decide),
   by decide⟩

/-- The claim's cascade scenario: 121 HR samples at 1 Hz over 120 s, with the
only user-modified sample `90` at t = 60000 ms. -/
def hrData : List Pt :=
  (List.range 121).map (fun i =>
    if i = 60 then ⟨60000, 90, true⟩ else ⟨((i * 1000 : ℕ) : ℚ), 70, false⟩)

set_option maxRecDepth 8000 in
theorem setDuration_cascade_fills_new_samples_witness :
    (120 : ℕ) < 180 ∧
    (durData hrSig 1000 (gridSamples 180 1000) hrData)[121]? =
      some ⟨((121 * 1000 : ℕ) : ℚ), clampQ hrSig (hrSig.dflt + (90 - hrSig.dflt)), false⟩ ∧
    clampQ hrSig (hrSig.dflt + (90 - hrSig.dflt)) = 90 :=
  have hgrid : gridInvData 120 1000 hrData := by decide
  ⟨by decide,
   setDuration_cascade_fills_new_samples hrSig 1000 120 180 hrData ⟨60000, 90, true⟩
     hgrid (by decide) (by decide) (by decide) 121 (by decide)
     (by
      rw [gridInv_maxX hgrid]
      exact_mod_cast (by decide : (gridSamples 120 1000 * 1000 : ℕ) < 121 * 1000)),
   by decide⟩

/-- A grid-invariant HR data array at 1 s / 1000 ms with a user edit. -/
def c7Data : List Pt := [⟨0, 70, false⟩, ⟨1000, 90, true⟩]

theorem setDuration_roundtrip_preserves_samples_witness :
    gridInvData 1 1000 c7Data ∧
    durData hrSig 1000 (gridSamples 1 1000)
      (durData hrSig 1000 (gridSamples 2 1000) c7Data) = c7Data :=
  ⟨by decide,
   (setDuration_roundtrip_preserves_samples hrSig 1000 1 c7Data (by decide) (by decide)).1
     2 (by decide)⟩

/-! ## Control-point interpolation (claim C5) -/

theorem chain'_lt_pairwise {l : List Pt} (h : List.Chain' (fun a b : Pt => a.x < b.x) l) :
    List.Pairwise (fun a b : Pt => a.x < b.x) l := by
  haveI : IsTrans Pt (fun a b : Pt => a.x < b.x) := ⟨fun _ _ _ hab hbc => lt_trans hab hbc⟩
  exact List.chain'_iff_pairwise.1 h

theorem sortByX_eq_self {l : List Pt} (h : List.Pairwise (fun a b : Pt => a.x < b.x) l) :
    sortByX l = l :=
  List.Sorted.insertionSort_eq (h.imp (fun hab => le_of_lt hab))

theorem interpLoop_exact (dflt : ℚ) (a : Pt) (l : List Pt)
    (hpair : List.Pairwise (fun u v : Pt => u.x < v.x) (a :: l)) :
    ∀ p ∈ l, interpLoop p.x dflt (a :: l) = p.y := by
  induction l generalizing a with
  | nil => intro p hp; simp at hp
  | cons b l' ih =>
    intro p hp
    have hab : a.x < b.x := (List.pairwise_cons.1 hpair).1 b (by simp)
    rcases List.mem_cons.1 hp with rfl | hp'
    · simp only [interpLoop]
      rw [if_pos ⟨le_of_lt hab, le_refl p.x⟩]
      have hne : p.x - a.x ≠ 0 := sub_ne_zero.2 (ne_of_gt hab)
      rw [div_self hne, one_mul]
      ring
    · have hbp : b.x < p.x := (List.pairwise_cons.1 (List.pairwise_cons.1 hpair).2).1 p hp'
      simp only [interpLoop]
      rw [if_neg (by intro hc; exact absurd hc.2 (not_le.2 hbp))]
      exact ih b (List.pairwise_cons.1 hpair).2 p hp'

/-- Claim C5: interpolation is exact at every control point of a strictly
increasing list; with no control points every regenerated sample is the
default, and with a single control point every sample is that point's value. -/
theorem interpolation_exact_at_control_points :
    (∀ (dflt : ℚ) (cps : List Pt), List.Chain' (fun a b : Pt => a.x < b.x) cps →
        ∀ p ∈ cps, interpolateValue p.x cps dflt = p.y)
    ∧ (∀ (sig : SigDef) (d r : ℕ), ∀ p ∈ regenData sig d r [], p.y = sig.dflt)
    ∧ (∀ (sig : SigDef) (d r : ℕ) (c : Pt), ∀ p ∈ regenData sig d r [c], p.y = c.y) := by
  refine ⟨?_, ?_, ?_⟩
  · intro dflt cps hchain p hp
    have hpair := chain'_lt_pairwise hchain
    have hsort : sortByX cps = cps := sortByX_eq_self hpair
    cases cps with
    | nil => simp at hp
    | cons first rest =>
      simp only [interpolateValue, hsort]
      by_cases h1 : p.x ≤ first.x
      · have hpf : p = first := by
          rcases List.mem_cons.1 hp with rfl | hp'
          · rfl
          · exact absurd h1 (not_le.2 ((List.pairwise_cons.1 hpair).1 p hp'))
        rw [if_pos h1, hpf]
      · rw [if_neg h1]
        by_cases h2 : ((first :: rest).getLast (List.cons_ne_nil first rest)).x ≤ p.x
        · rw [if_pos h2]
          obtain ⟨n, hn, hpn⟩ := List.getElem_of_mem hp
          rcases Nat.lt_or_ge n ((first :: rest).length - 1) with hn' | hn'
          · exfalso
            have hlt := List.pairwise_iff_getElem.1 hpair n ((first :: rest).length - 1)
              hn (by simp) hn'
            rw [hpn] at hlt
            rw [← List.getLast_eq_getElem (first :: rest) (List.cons_ne_nil first rest)] at hlt
            exact absurd h2 (not_le.2 hlt)
          · have hneq : n = (first :: rest).length - 1 := by
              have : n < (first :: rest).length := hn
              omega
            subst hneq
            rw [List.getLast_eq_getElem (first :: rest) (List.cons_ne_nil first rest), hpn]
        · rw [if_neg h2]
          have hp' : p ∈ rest := by
            rcases List.mem_cons.1 hp with rfl | hp'
            · exact absurd (le_refl p.x) h1
            · exact hp'
          exact interpLoop_exact dflt first rest hpair p hp'
  · intro sig d r p hp
    unfold regenData at hp
    obtain ⟨i, _, rfl⟩ := List.mem_map.1 hp
    rfl
  · intro sig d r c p hp
    unfold regenData at hp
    obtain ⟨i, _, rfl⟩ := List.mem_map.1 hp
    rfl

/-- Three strictly increasing control points for the interpolation witness. -/
def c5Cps : List Pt := [⟨0, 10, false⟩, ⟨100, 20, false⟩, ⟨300, 5, false⟩]

theorem interpolation_exact_at_control_points_witness :
    interpolateValue 100 c5Cps 70 = 20 ∧
    (∀ p ∈ regenData hrSig 1 1000 [], p.y = hrSig.dflt) := by
  constructor
  · have h := interpolation_exact_at_control_points.1 70 c5Cps
      (by norm_num [c5Cps, List.chain'_cons]) ⟨100, 20, false⟩ (by decide)
    simpa using h
  · exact fun p hp => interpolation_exact_at_control_points.2.1 hrSig 1 1000 p hp


/-! ## Store-level grid invariant (claim C1) -/

theorem lookupSt_mem {states : List (String × SigState)} {k : String} {st : SigState}
    (h : lookupSt states k = some st) : (k, st) ∈ states := by
  unfold lookupSt at h
  cases hf : states.find? (fun e => decide (e.1 = k)) with
  | none => rw [hf] at h; simp at h
  | some e =>
    rw [hf] at h
    have he2 : e.2 = st := by simpa using h
    have hk : e.1 = k := by
      have := List.find?_some hf
      simpa using this
    have hm := List.mem_of_find?_eq_some hf
    rw [← hk, ← he2]
    exact hm

theorem mem_setSt {states : List (String × SigState)} {k : String} {f : SigState → SigState}
    {e' : String × SigState} (h : e' ∈ setSt states k f) :
    ∃ e ∈ states, e' = e ∨ (e.1 = k ∧ e' = (e.1, f e.2)) := by
  unfold setSt at h
  obtain ⟨e, he, heq⟩ := List.mem_map.1 h
  refine ⟨e, he, ?_⟩
  by_cases hk : e.1 = k
  · rw [if_pos hk] at heq
    exact Or.inr ⟨hk, heq.symm⟩
  · rw [if_neg hk] at heq
    exact Or.inl heq.symm

/-- The entry-wise grid invariant over a raw state table. -/
def statesGridInv (d r : ℕ) (states : List (String × SigState)) : Prop :=
  ∀ e ∈ states, (findSignal e.1).isSome = true → gridInvData d r e.2.data

theorem statesGridInv_setSt {d r : ℕ} {states : List (String × SigState)} {k : String}
    {f : SigState → SigState} (h : statesGridInv d r states)
    (hf : ∀ st, (f st).data = st.data) : statesGridInv d r (setSt states k f) := by
  intro e' he' hs
  obtain ⟨e, he, hcase⟩ := mem_setSt he'
  rcases hcase with h1 | ⟨hk, h1⟩
  · rw [h1] at hs ⊢
    exact h e he hs
  · rw [h1] at hs ⊢
    simp only [hf]
    exact h e he (by simpa using hs)

theorem statesGridInv_append_baseline {d r : ℕ} {states : List (String × SigState)}
    (h : statesGridInv d r states) (k : String) (st : SigState)
    (hdata : st.data = generateBaselineData k d r) :
    statesGridInv d r (states ++ [(k, st)]) := by
  intro e' he' hs
  rcases List.mem_append.1 he' with he | he
  · exact h e' he hs
  · have heq : e' = (k, st) := by simpa using he
    rw [heq] at hs ⊢
    simp only [hdata]
    cases hsig : findSignal k with
    | none => rw [hsig] at hs; simp at hs
    | some sig => exact generateBaselineData_gridInv k d r sig hsig

theorem storeGridInv_regenerate (k : String) (s : Store) (h : storeGridInv s) :
    storeGridInv (regenerateStore k s) := by
  cases h1 : lookupSt s.signalStates k with
  | none =>
    have heq : regenerateStore k s = s := by
      unfold regenerateStore
      rw [h1]
    rw [heq]
    exact h
  | some st =>
    cases h2 : findSignal k with
    | none =>
      have heq : regenerateStore k s = s := by
        unfold regenerateStore
        rw [h1, h2]
      rw [heq]
      exact h
    | some sig =>
      have heq : regenerateStore k s = { s with signalStates := (setSt s.signalStates k
          (fun st => { st with data := regenData sig s.duration s.sampleRate st.controlPoints })) } := by
        unfold regenerateStore
        rw [h1, h2]
      rw [heq]
      intro e' he' hs
      have he2 : e' ∈ setSt s.signalStates k
          (fun st => { st with data := regenData sig s.duration s.sampleRate st.controlPoints }) := he'
      obtain ⟨e, he, hcase⟩ := mem_setSt he2
      rcases hcase with h3 | ⟨hk, h3⟩
      · rw [h3] at hs ⊢
        exact h e he hs
      · rw [h3]
        exact regenData_gridInv sig s.duration s.sampleRate e.2.controlPoints

/-- Claim C1 (amended): after `setSelectedSignals` / `initializeSignal` /
`setDuration` / `setSampleRate` / `resetSignalToDefault` and every
control-point edit, every known signal's data sits exactly on the grid:
`data.length = floor(duration * 1000 / sampleRate) + 1` and
`data[i].x = i * sampleRate`.  `importCSV` is excluded: see the
counterexample `importCSV_breaks_grid_invariant`. -/
theorem grid_invariant_after_mutations (s : Store) (h : storeGridInv s) :
    (∀ ks, storeGridInv (selectSignalsStore ks s))
    ∧ (∀ k, storeGridInv (initSignalStore k s))
    ∧ (∀ d2, storeGridInv (setDurationStore d2 s))
    ∧ (∀ r2, storeGridInv (setSampleRateStore r2 s))
    ∧ (∀ k, storeGridInv (resetSignalStore k s))
    ∧ (∀ k p, storeGridInv (addControlPointStore k p s))
    ∧ (∀ k i p, storeGridInv (moveControlPointStore k i p s))
    ∧ (∀ k i, storeGridInv (deleteControlPointStore k i s)) := by
  have hbase : statesGridInv s.duration s.sampleRate s.signalStates := h
  refine ⟨?_, ?_, ?_, ?_, ?_, ?_, ?_, ?_⟩
  · -- setSelectedSignals
    intro ks
    have hadd : statesGridInv s.duration s.sampleRate
        (ks.foldl (selectStep s.selectedSignals s.duration s.sampleRate)
          (s.signalStates, maxOrder s.signalStates)).1 := by
      refine List.foldlRecOn
        (motive := fun acc => statesGridInv s.duration s.sampleRate acc.1)
        ks (selectStep s.selectedSignals s.duration s.sampleRate)
        (s.signalStates, maxOrder s.signalStates) hbase ?_
      intro acc hacc k _
      unfold selectStep
      by_cases hc : s.selectedSignals.contains k
      · rw [if_pos hc]; exact hacc
      · rw [if_neg hc]
        cases hl : lookupSt acc.1 k with
        | some st =>
          show statesGridInv s.duration s.sampleRate
            (setSt acc.1 k (fun st => { st with isVisible := true }))
          exact statesGridInv_setSt hacc (by intro st; rfl)
        | none =>
          show statesGridInv s.duration s.sampleRate (acc.1 ++
            [(k, ⟨k, generateBaselineData k s.duration s.sampleRate, [], true, acc.2 + 1⟩)])
          exact statesGridInv_append_baseline hacc k _ rfl
    have hhide : statesGridInv s.duration s.sampleRate
        (s.selectedSignals.foldl
          (fun states k =>
            if ks.contains k then states
            else setSt states k (fun st => { st with isVisible := false }))
          (ks.foldl (selectStep s.selectedSignals s.duration s.sampleRate)
            (s.signalStates, maxOrder s.signalStates)).1) := by
      refine List.foldlRecOn
        (motive := fun states => statesGridInv s.duration s.sampleRate states)
        s.selectedSignals _ _ hadd ?_
      intro states hst k _
      by_cases hc : ks.contains k
      · rw [if_pos hc]; exact hst
      · rw [if_neg hc]
        exact statesGridInv_setSt hst (by intro st; rfl)
    exact hhide
  · -- initializeSignal
    intro k
    cases hl : lookupSt s.signalStates k with
    | some st =>
      have heq : initSignalStore k s = s := by
        unfold initSignalStore
        rw [hl]
      rw [heq]
      exact h
    | none =>
      have heq : initSignalStore k s = { s with signalStates := (s.signalStates ++
          [(k, ⟨k, generateBaselineData k s.duration s.sampleRate, [], true,
            maxOrder s.signalStates + 1⟩)]) } := by
        unfold initSignalStore
        rw [hl]
      rw [heq]
      exact statesGridInv_append_baseline hbase k _ rfl
  · -- setDuration
    intro d2
    intro e' he' _
    obtain ⟨e, _, heq⟩ := List.mem_filterMap.1 he'
    cases hsig : findSignal e.1 with
    | none => rw [hsig] at heq; simp at heq
    | some sig =>
      rw [hsig] at heq
      have h2 : e' = (e.1, { e.2 with data := durData sig s.sampleRate (gridSamples d2 s.sampleRate) e.2.data }) := by
        simpa using heq.symm
      rw [h2]
      exact durData_gridInv sig s.sampleRate d2 e.2.data
  · -- setSampleRate
    intro r2
    intro e' he' _
    obtain ⟨e, _, heq⟩ := List.mem_filterMap.1 he'
    cases hsig : findSignal e.1 with
    | none => rw [hsig] at heq; simp at heq
    | some sig =>
      rw [hsig] at heq
      have h2 : e' = (e.1, { e.2 with data := rateResample sig s.duration r2 e.2.data }) := by
        simpa using heq.symm
      rw [h2]
      exact rateResample_gridInv sig s.duration r2 e.2.data
  · -- resetSignalToDefault
    intro k
    cases hl : lookupSt s.signalStates k with
    | none =>
      have heq : resetSignalStore k s = s := by
        unfold resetSignalStore
        rw [hl]
      rw [heq]
      exact h
    | some st =>
      have heq : resetSignalStore k s = { s with signalStates := (setSt s.signalStates k
          (fun st => { st with controlPoints := [], data := generateBaselineData k s.duration s.sampleRate })) } := by
        unfold resetSignalStore
        rw [hl]
      rw [heq]
      intro e' he' hs
      have he2 : e' ∈ setSt s.signalStates k
          (fun st => { st with controlPoints := [], data := generateBaselineData k s.duration s.sampleRate }) := he'
      obtain ⟨e, he, hcase⟩ := mem_setSt he2
      rcases hcase with h1 | ⟨hk, h1⟩
      · rw [h1] at hs ⊢
        exact hbase e he hs
      · rw [h1] at hs ⊢
        simp only at hs ⊢
        rw [hk] at hs
        cases hsig : findSignal k with
        | none => rw [hsig] at hs; simp at hs
        | some sig => exact generateBaselineData_gridInv k s.duration s.sampleRate sig hsig
  · -- addControlPoint
    intro k p
    cases h1 : lookupSt s.signalStates k with
    | none =>
      have heq : addControlPointStore k p s = s := by
        unfold addControlPointStore
        rw [h1]
      rw [heq]
      exact h
    | some st =>
      cases h2 : findSignal k with
      | none =>
        have heq : addControlPointStore k p s = s := by
          unfold addControlPointStore
          rw [h1, h2]
        rw [heq]
        exact h
      | some sig =>
        have heq : addControlPointStore k p s = regenerateStore k
            { s with signalStates := (setSt s.signalStates k
              (fun st => { st with controlPoints := sortByX (st.controlPoints ++ [clampPoint sig s.duration p]) })) } := by
          unfold addControlPointStore
          rw [h1, h2]
        rw [heq]
        apply storeGridInv_regenerate
        show statesGridInv s.duration s.sampleRate (setSt s.signalStates k
          (fun st => { st with controlPoints := sortByX (st.controlPoints ++ [clampPoint sig s.duration p]) }))
        exact statesGridInv_setSt hbase (by intro st; rfl)
  · -- moveControlPoint
    intro k i p
    cases h1 : lookupSt s.signalStates k with
    | none =>
      have heq : moveControlPointStore k i p s = s := by
        unfold moveControlPointStore
        rw [h1]
      rw [heq]
      exact h
    | some st =>
      cases h2 : findSignal k with
      | none =>
        have heq : moveControlPointStore k i p s = s := by
          unfold moveControlPointStore
          rw [h1, h2]
        rw [heq]
        exact h
      | some sig =>
        by_cases hi : i < st.controlPoints.length
        · have heq : moveControlPointStore k i p s = regenerateStore k
              { s with signalStates := (setSt s.signalStates k
                (fun st' => { st' with controlPoints := sortByX (st'.controlPoints.set i (clampPoint sig s.duration p)) })) } := by
            unfold moveControlPointStore
            rw [h1, h2]
            dsimp only
            rw [if_pos hi]
          rw [heq]
          apply storeGridInv_regenerate
          show statesGridInv s.duration s.sampleRate (setSt s.signalStates k
            (fun st' => { st' with controlPoints := sortByX (st'.controlPoints.set i (clampPoint sig s.duration p)) }))
          exact statesGridInv_setSt hbase (by intro st; rfl)
        · have heq : moveControlPointStore k i p s = s := by
            unfold moveControlPointStore
            rw [h1, h2]
            dsimp only
            rw [if_neg hi]
          rw [heq]
          exact h
  · -- deleteControlPoint
    intro k i
    cases h1 : lookupSt s.signalStates k with
    | none =>
      have heq : deleteControlPointStore k i s = s := by
        unfold deleteControlPointStore
        rw [h1]
      rw [heq]
      exact h
    | some st =>
      by_cases hi : i < st.controlPoints.length
      · have heq : deleteControlPointStore k i s = regenerateStore k
            { s with signalStates := (setSt s.signalStates k
              (fun st' => { st' with controlPoints := st'.controlPoints.eraseIdx i })) } := by
          unfold deleteControlPointStore
          rw [h1]
          dsimp only
          rw [if_pos hi]
        rw [heq]
        apply storeGridInv_regenerate
        show statesGridInv s.duration s.sampleRate (setSt s.signalStates k
          (fun st' => { st' with controlPoints := st'.controlPoints.eraseIdx i }))
        exact statesGridInv_setSt hbase (by intro st; rfl)
      · have heq : deleteControlPointStore k i s = s := by
          unfold deleteControlPointStore
          rw [h1]
          dsimp only
          rw [if_neg hi]
        rw [heq]
        exact h

/-- A two-row CSV whose timestamps (0 ms, 500 ms) do not form the uniform
grid that `importCSV` infers (duration 1 s, sample rate 1000 ms). -/
def c1Rows : List Row := [[("Time", "0"), ("HR", "70")], [("Time", "500"), ("HR", "75")]]

set_option maxRecDepth 4000 in
/-- Claim C1 counterexample: `importCSV` commits the raw CSV timestamps, so
after a successful import the HR data is `[0 ms, 500 ms]` while the inferred
grid (duration 1 s, rate 1000 ms) demands `[0 ms, 1000 ms]` — the grid
invariant `data[i].x = i * sampleRate` does not survive `importCSV`. -/
theorem importCSV_breaks_grid_invariant :
    (importCSVRun initialStore c1Rows).1 = none ∧
    (importCSVRun initialStore c1Rows).2.duration = 1 ∧
    (importCSVRun initialStore c1Rows).2.sampleRate = 1000 ∧
    ¬ storeGridInv (importCSVRun initialStore c1Rows).2 := by decide

/-- A small store satisfying the grid invariant (HR over 2 s at 1 Hz). -/
def c1Store : Store :=
  { selectedSignals := ["HR"]
  , signalStates := [("HR", ⟨"HR", [⟨0, 70, false⟩, ⟨1000, 70, false⟩, ⟨2000, 70, false⟩],
      [], true, 1⟩)]
  , duration := 2
  , sampleRate := 1000
  , globalCascadeEnabled := true }

set_option maxRecDepth 4000 in
theorem grid_invariant_after_mutations_witness :
    storeGridInv c1Store ∧ storeGridInv (setDurationStore 3 c1Store) :=
  ⟨by decide, (grid_invariant_after_mutations c1Store (by decide)).2.2.1 3⟩

/-! ## Value bounds (claim C2) -/

theorem SIGNALS_wf : ∀ e ∈ SIGNALS, e.2.min ≤ e.2.dflt ∧ e.2.dflt ≤ e.2.max := by decide

theorem findSignal_wf {k : String} {sig : SigDef} (h : findSignal k = some sig) :
    sig.min ≤ sig.dflt ∧ sig.dflt ≤ sig.max := by
  unfold findSignal at h
  cases hf : SIGNALS.find? (fun e => decide (e.1 = k)) with
  | none => rw [hf] at h; simp at h
  | some e =>
    rw [hf] at h
    have he : e.2 = sig := by simpa using h
    rw [← he]
    exact SIGNALS_wf e (List.mem_of_find?_eq_some hf)

theorem findSignal_minmax {k : String} {sig : SigDef} (h : findSignal k = some sig) :
    sig.min ≤ sig.max :=
  le_trans (findSignal_wf h).1 (findSignal_wf h).2

theorem clampQ_inB (sig : SigDef) (hmm : sig.min ≤ sig.max) (v : ℚ) :
    inB sig (clampQ sig v) :=
  ⟨le_max_left _ _, max_le hmm (min_le_left _ _)⟩

theorem convex_inB {sig : SigDef} {u v f : ℚ} (hu : inB sig u) (hv : inB sig v)
    (hf0 : 0 ≤ f) (hf1 : f ≤ 1) : inB sig (u + (v - u) * f) := by
  constructor <;> nlinarith [hu.1, hu.2, hv.1, hv.2]

theorem durExtend_bounds (sig : SigDef) (r newS : ℕ) (l : List Pt)
    (hl : ∀ p ∈ l, inB sig p.y) (hd : sig.min ≤ sig.dflt ∧ sig.dflt ≤ sig.max) :
    ∀ p ∈ durExtend sig r newS l, inB sig p.y := by
  intro p hp
  unfold durExtend at hp
  obtain ⟨i, _, heq⟩ := List.mem_map.1 hp
  rw [← heq]
  dsimp only
  split
  · next q hfind => exact hl q (List.mem_of_find?_eq_some hfind)
  · exact hd

theorem durData_bounds (sig : SigDef) (r newS : ℕ) (l : List Pt)
    (hl : ∀ p ∈ l, inB sig p.y) (hd : sig.min ≤ sig.dflt ∧ sig.dflt ≤ sig.max) :
    ∀ p ∈ durData sig r newS l, inB sig p.y := by
  have hmm : sig.min ≤ sig.max := le_trans hd.1 hd.2
  have hext := durExtend_bounds sig r newS l hl hd
  intro p hp
  cases hlm : lastModifiedPt l with
  | none =>
    simp only [durData, hlm] at hp
    exact hext p hp
  | some lm =>
    simp only [durData, hlm] at hp
    split at hp
    · split at hp
      · obtain ⟨q, hq, heq⟩ := List.mem_map.1 hp
        revert heq
        split
        · intro heq
          rw [← heq]
          exact clampQ_inB sig hmm _
        · intro heq
          rw [← heq]
          exact hext q hq
      · exact hext p hp
    · exact hext p hp

theorem rateResample_bounds (sig : SigDef) (d r : ℕ) (l : List Pt)
    (hl : ∀ p ∈ l, inB sig p.y) (hd : sig.min ≤ sig.dflt ∧ sig.dflt ≤ sig.max) :
    ∀ p ∈ rateResample sig d r l, inB sig p.y := by
  intro p hp
  unfold rateResample at hp
  obtain ⟨i, _, heq⟩ := List.mem_map.1 hp
  rw [← heq]
  dsimp only
  split
  · next q hfind => exact hl q (List.mem_of_find?_eq_some hfind)
  · split
    · next b a hb ha =>
      have hbm := List.mem_filter.1 (pickMaxPt_mem hb)
      have ham := List.mem_filter.1 (pickMinPt_mem ha)
      have hbx : b.x < ((i * r : ℕ) : ℚ) := by simpa using hbm.2
      have hax : ((i * r : ℕ) : ℚ) < a.x := by simpa using ham.2
      have hba : b.x < a.x := lt_trans hbx hax
      have hf0 : 0 ≤ (((i * r : ℕ) : ℚ) - b.x) / (a.x - b.x) :=
        div_nonneg (by linarith) (by linarith)
      have hf1 : (((i * r : ℕ) : ℚ) - b.x) / (a.x - b.x) ≤ 1 := by
        rw [div_le_one (by linarith)]
        linarith
      exact convex_inB (hl b hbm.1) (hl a ham.1) hf0 hf1
    · next b hb _ => exact hl b (List.mem_filter.1 (pickMaxPt_mem hb)).1
    · next a _ ha => exact hl a (List.mem_filter.1 (pickMinPt_mem ha)).1
    · exact hd

theorem interpLoop_bounds (sig : SigDef) (x dflt : ℚ) (hdflt : inB sig dflt) :
    ∀ l : List Pt, (∀ p ∈ l, inB sig p.y) → inB sig (interpLoop x dflt l) := by
  intro l
  induction l with
  | nil => intro _; simpa [interpLoop] using hdflt
  | cons p1 t ih =>
    intro hl
    cases t with
    | nil => simpa [interpLoop] using hdflt
    | cons p2 rest =>
      simp only [interpLoop]
      split
      · next hcond =>
        rcases lt_trichotomy p1.x p2.x with hlt | heq | hgt
        · have hf0 : 0 ≤ (x - p1.x) / (p2.x - p1.x) :=
            div_nonneg (by linarith [hcond.1]) (by linarith)
          have hf1 : (x - p1.x) / (p2.x - p1.x) ≤ 1 := by
            rw [div_le_one (by linarith)]
            linarith [hcond.2]
          have := convex_inB (hl p1 (by simp)) (hl p2 (by simp)) hf0 hf1
          rw [mul_comm] at this
          exact this
        · have hx : x = p1.x := le_antisymm (by rw [heq]; exact hcond.2) hcond.1
          rw [hx, sub_self, zero_div, zero_mul, add_zero]
          exact hl p1 (by simp)
        · exact absurd (le_trans hcond.1 hcond.2) (not_le.2 hgt)
      · exact ih (fun q hq => hl q (by simp [hq]))

theorem interpolateValue_bounds (sig : SigDef) (x dflt : ℚ) (cps : List Pt)
    (hdflt : inB sig dflt) (hcps : ∀ p ∈ cps, inB sig p.y) :
    inB sig (interpolateValue x cps dflt) := by
  have hsorted : ∀ p ∈ sortByX cps, inB sig p.y := fun p hp =>
    hcps p ((List.perm_insertionSort _ cps).mem_iff.1 hp)
  cases hs : sortByX cps with
  | nil => simpa [interpolateValue, hs] using hdflt
  | cons first rest =>
    rw [hs] at hsorted
    simp only [interpolateValue, hs]
    split
    · exact hsorted first (by simp)
    · split
      · exact hsorted _ (List.getLast_mem (List.cons_ne_nil first rest))
      · exact interpLoop_bounds sig x dflt hdflt _ hsorted

theorem regenData_bounds (sig : SigDef) (d r : ℕ) (cps : List Pt)
    (hcps : ∀ p ∈ cps, inB sig p.y) (hd : sig.min ≤ sig.dflt ∧ sig.dflt ≤ sig.max) :
    ∀ p ∈ regenData sig d r cps, inB sig p.y := by
  intro p hp
  unfold regenData at hp
  obtain ⟨i, _, heq⟩ := List.mem_map.1 hp
  rw [← heq]
  cases cps with
  | nil => exact hd
  | cons c t =>
    cases t with
    | nil => exact hcps c (by simp)
    | cons c2 t2 => exact interpolateValue_bounds sig _ _ _ hd hcps

theorem generateBaselineData_bounds (k : String) (d r : ℕ) {sig : SigDef}
    (h : findSignal k = some sig) :
    ∀ p ∈ generateBaselineData k d r, inB sig p.y := by
  intro p hp
  unfold generateBaselineData at hp
  rw [h] at hp
  obtain ⟨i, _, heq⟩ := List.mem_map.1 hp
  rw [← heq]
  exact findSignal_wf h

/-- The entry-wise bounds invariant over a raw state table. -/
def statesBounds (states : List (String × SigState)) : Prop :=
  ∀ e ∈ states, ∀ sig, findSignal e.1 = some sig →
    (∀ p ∈ e.2.data, inB sig p.y) ∧ (∀ p ∈ e.2.controlPoints, inB sig p.y)

theorem storeBounds_iff (s : Store) : storeBounds s ↔ statesBounds s.signalStates := Iff.rfl

theorem statesBounds_setSt {states : List (String × SigState)} {k : String}
    {f : SigState → SigState} (h : statesBounds states)
    (hf : ∀ st, ∀ sig, findSignal k = some sig →
      (∀ p ∈ st.data, inB sig p.y) → (∀ p ∈ st.controlPoints, inB sig p.y) →
      (∀ p ∈ (f st).data, inB sig p.y) ∧ (∀ p ∈ (f st).controlPoints, inB sig p.y)) :
    statesBounds (setSt states k f) := by
  intro e' he' sig hsig
  obtain ⟨e, he, hcase⟩ := mem_setSt he'
  rcases hcase with h1 | ⟨hk, h1⟩
  · rw [h1] at hsig ⊢
    exact h e he sig hsig
  · rw [h1] at hsig ⊢
    simp only at hsig ⊢
    have hb := h e he sig hsig
    exact hf e.2 sig (by rw [← hk]; exact hsig) hb.1 hb.2

theorem statesBounds_append {states : List (String × SigState)} (h : statesBounds states)
    (k : String) (st : SigState)
    (hst : ∀ sig, findSignal k = some sig →
      (∀ p ∈ st.data, inB sig p.y) ∧ (∀ p ∈ st.controlPoints, inB sig p.y)) :
    statesBounds (states ++ [(k, st)]) := by
  intro e' he' sig hsig
  rcases List.mem_append.1 he' with he | he
  · exact h e' he sig hsig
  · have heq : e' = (k, st) := by simpa using he
    rw [heq] at hsig ⊢
    exact hst sig hsig

theorem statesBounds_regenerate (k : String) (s : Store) (h : storeBounds s) :
    storeBounds (regenerateStore k s) := by
  cases h1 : lookupSt s.signalStates k with
  | none =>
    have heq : regenerateStore k s = s := by
      unfold regenerateStore
      rw [h1]
    rw [heq]
    exact h
  | some st =>
    cases h2 : findSignal k with
    | none =>
      have heq : regenerateStore k s = s := by
        unfold regenerateStore
        rw [h1, h2]
      rw [heq]
      exact h
    | some sig =>
      have heq : regenerateStore k s = { s with signalStates := (setSt s.signalStates k
          (fun st => { st with data := regenData sig s.duration s.sampleRate st.controlPoints })) } := by
        unfold regenerateStore
        rw [h1, h2]
      rw [heq]
      show statesBounds (setSt s.signalStates k
        (fun st => { st with data := regenData sig s.duration s.sampleRate st.controlPoints }))
      refine statesBounds_setSt h ?_
      intro st' sig' hsig' _ hcps
      have hss : sig' = sig := by
        rw [h2] at hsig'
        exact (Option.some.inj hsig').symm
      subst hss
      exact ⟨regenData_bounds sig' s.duration s.sampleRate st'.controlPoints hcps
        (findSignal_wf h2), hcps⟩

theorem signalDataOf_bounds (data : List Row) (tc : String) (sig : SigDef)
    (col : String) (hmm : sig.min ≤ sig.max) :
    ∀ p ∈ signalDataOf data tc sig col, inB sig p.y := by
  intro p hp
  unfold signalDataOf at hp
  have hp' := (List.perm_insertionSort _ _).mem_iff.1 hp
  obtain ⟨row, _, heq⟩ := List.mem_filterMap.1 hp'
  obtain ⟨x, _, heq2⟩ := Option.bind_eq_some.1 heq
  obtain ⟨v, _, heq3⟩ := Option.bind_eq_some.1 heq2
  have : (⟨x, clampQ sig v, false⟩ : Pt) = p := by simpa using heq3
  rw [← this]
  exact clampQ_inB sig hmm v

theorem buildStates_bounds (data : List Row) (tc : String)
    (mapping : List (String × String)) (startOrder : ℕ) :
    statesBounds (buildStates data tc mapping startOrder) := by
  unfold buildStates
  refine List.foldlRecOn
    (motive := fun acc => statesBounds acc.1)
    (mapping.map (·.2)) _ ([], startOrder) ?_ ?_
  · intro e he
    simp at he
  · intro acc hacc signalId _
    cases hsig : findSignal signalId with
    | none => exact hacc
    | some sig =>
      dsimp only
      split
      · dsimp only
        unfold upsertState
        split
        · show statesBounds (setSt acc.1 signalId
            (fun _ => ⟨signalId, signalDataOf data tc sig (columnFor mapping signalId), [],
              true, acc.2 + 1⟩))
          refine statesBounds_setSt hacc ?_
          intro st' sig' hsig' _ _
          have hss : sig' = sig := by
            rw [hsig] at hsig'
            exact (Option.some.inj hsig').symm
          subst hss
          refine ⟨signalDataOf_bounds data tc sig' _ (findSignal_minmax hsig), ?_⟩
          intro p hp
          simp at hp
        · show statesBounds (acc.1 ++ [(signalId,
            ⟨signalId, signalDataOf data tc sig (columnFor mapping signalId), [],
              true, acc.2 + 1⟩)])
          refine statesBounds_append hacc signalId _ ?_
          intro sig' hsig'
          have hss : sig' = sig := by
            rw [hsig] at hsig'
            exact (Option.some.inj hsig').symm
          subst hss
          refine ⟨signalDataOf_bounds data tc sig' _ (findSignal_minmax hsig), ?_⟩
          intro p hp
          simp at hp
      · exact hacc

theorem objMerge_bounds {a b : List (String × SigState)}
    (ha : statesBounds a) (hb : statesBounds b) : statesBounds (objMerge a b) := by
  intro e' he' sig hsig
  unfold objMerge at he'
  rcases List.mem_append.1 he' with he | he
  · obtain ⟨e, he2, heq⟩ := List.mem_map.1 he
    rw [← heq] at hsig ⊢
    simp only at hsig ⊢
    cases hl : lookupSt b e.1 with
    | none =>
      simp only [hl, Option.getD_none]
      exact ha e he2 sig hsig
    | some v =>
      simp only [hl, Option.getD_some]
      exact hb (e.1, v) (lookupSt_mem hl) sig hsig
  · exact hb e' (List.mem_filter.1 he).1 sig hsig

theorem importCSVRun_bounds (s : Store) (rows : List Row) (h : storeBounds s) :
    storeBounds (importCSVRun s rows).2 := by
  unfold importCSVRun
  split
  · exact h
  · next r0 rest =>
    dsimp only
    split
    · exact h
    · next tc htc =>
      split
      · exact h
      · next t0 ts htv =>
        split
        · exact h
        · next m ms hm =>
          show statesBounds (objMerge s.signalStates (buildStates (r0 :: rest) tc
            (signalMappingOf (rowKeys r0)) (maxOrder s.signalStates)))
          exact objMerge_bounds h (buildStates_bounds _ _ _ _)

theorem statesBounds_append_baseline {states : List (String × SigState)}
    (h : statesBounds states) (k : String) (d r ord : ℕ) :
    statesBounds (states ++ [(k, ⟨k, generateBaselineData k d r, [], true, ord⟩)]) := by
  refine statesBounds_append h k _ ?_
  intro sig hsig
  refine ⟨generateBaselineData_bounds k d r hsig, ?_⟩
  intro p hp
  simp at hp

theorem statesBounds_setSt_visible {states : List (String × SigState)} {k : String}
    {b : Bool} (h : statesBounds states) :
    statesBounds (setSt states k (fun st => { st with isVisible := b })) :=
  statesBounds_setSt h (fun _ _ _ hd hc => ⟨hd, hc⟩)

/-- Claim C2 (amended): the bounds invariant `value ∈ [min, max]` on all dense
data and control points is preserved by every store operation except
`updateSignalData`, which stores the caller's array verbatim (see the
counterexample `updateSignalData_skips_clamping`). -/
theorem bounds_invariant_after_mutations (s : Store) (h : storeBounds s) :
    (∀ ks, storeBounds (selectSignalsStore ks s))
    ∧ (∀ k, storeBounds (initSignalStore k s))
    ∧ (∀ d2, storeBounds (setDurationStore d2 s))
    ∧ (∀ r2, storeBounds (setSampleRateStore r2 s))
    ∧ (∀ k, storeBounds (resetSignalStore k s))
    ∧ (∀ k p, storeBounds (addControlPointStore k p s))
    ∧ (∀ k i p, storeBounds (moveControlPointStore k i p s))
    ∧ (∀ k i, storeBounds (deleteControlPointStore k i s))
    ∧ (∀ k, storeBounds (toggleVisibilityStore k s))
    ∧ (∀ rows, storeBounds (importCSVRun s rows).2) := by
  have hbase : statesBounds s.signalStates := h
  refine ⟨?_, ?_, ?_, ?_, ?_, ?_, ?_, ?_, ?_, ?_⟩
  · -- setSelectedSignals
    intro ks
    have hadd : statesBounds
        (ks.foldl (selectStep s.selectedSignals s.duration s.sampleRate)
          (s.signalStates, maxOrder s.signalStates)).1 := by
      refine List.foldlRecOn
        (motive := fun acc => statesBounds acc.1)
        ks (selectStep s.selectedSignals s.duration s.sampleRate)
        (s.signalStates, maxOrder s.signalStates) hbase ?_
      intro acc hacc k _
      unfold selectStep
      by_cases hc : s.selectedSignals.contains k
      · rw [if_pos hc]; exact hacc
      · rw [if_neg hc]
        cases hl : lookupSt acc.1 k with
        | some st =>
          show statesBounds
            (setSt acc.1 k (fun st => { st with isVisible := true }))
          exact statesBounds_setSt_visible hacc
        | none =>
          show statesBounds (acc.1 ++
            [(k, ⟨k, generateBaselineData k s.duration s.sampleRate, [], true, acc.2 + 1⟩)])
          exact statesBounds_append_baseline hacc k s.duration s.sampleRate (acc.2 + 1)
    refine List.foldlRecOn
      (motive := fun states => statesBounds states)
      s.selectedSignals _ _ hadd ?_
    intro states hst k _
    by_cases hc : ks.contains k
    · rw [if_pos hc]; exact hst
    · rw [if_neg hc]
      exact statesBounds_setSt_visible hst
  · -- initializeSignal
    intro k
    cases hl : lookupSt s.signalStates k with
    | some st =>
      have heq : initSignalStore k s = s := by
        unfold initSignalStore
        rw [hl]
      rw [heq]
      exact h
    | none =>
      have heq : initSignalStore k s = { s with signalStates := (s.signalStates ++
          [(k, ⟨k, generateBaselineData k s.duration s.sampleRate, [], true,
            maxOrder s.signalStates + 1⟩)]) } := by
        unfold initSignalStore
        rw [hl]
      rw [heq]
      exact statesBounds_append_baseline hbase k s.duration s.sampleRate _
  · -- setDuration
    intro d2
    intro e' he' sig hsig
    obtain ⟨e, he, heq⟩ := List.mem_filterMap.1 he'
    cases hs2 : findSignal e.1 with
    | none => rw [hs2] at heq; simp at heq
    | some sig2 =>
      rw [hs2] at heq
      have h2 : e' = (e.1, { e.2 with data := durData sig2 s.sampleRate (gridSamples d2 s.sampleRate) e.2.data }) := by
        simpa using heq.symm
      rw [h2] at hsig ⊢
      simp only at hsig ⊢
      have hss : sig = sig2 := by
        rw [hs2] at hsig
        exact (Option.some.inj hsig).symm
      subst hss
      have hb := hbase e he sig hs2
      exact ⟨durData_bounds sig _ _ _ hb.1 (findSignal_wf hs2), hb.2⟩
  · -- setSampleRate
    intro r2
    intro e' he' sig hsig
    obtain ⟨e, he, heq⟩ := List.mem_filterMap.1 he'
    cases hs2 : findSignal e.1 with
    | none => rw [hs2] at heq; simp at heq
    | some sig2 =>
      rw [hs2] at heq
      have h2 : e' = (e.1, { e.2 with data := rateResample sig2 s.duration r2 e.2.data }) := by
        simpa using heq.symm
      rw [h2] at hsig ⊢
      simp only at hsig ⊢
      have hss : sig = sig2 := by
        rw [hs2] at hsig
        exact (Option.some.inj hsig).symm
      subst hss
      have hb := hbase e he sig hs2
      exact ⟨rateResample_bounds sig _ _ _ hb.1 (findSignal_wf hs2), hb.2⟩
  · -- resetSignalToDefault
    intro k
    cases hl : lookupSt s.signalStates k with
    | none =>
      have heq : resetSignalStore k s = s := by
        unfold resetSignalStore
        rw [hl]
      rw [heq]
      exact h
    | some st =>
      have heq : resetSignalStore k s = { s with signalStates := (setSt s.signalStates k
          (fun st => { st with controlPoints := [], data := generateBaselineData k s.duration s.sampleRate })) } := by
        unfold resetSignalStore
        rw [hl]
      rw [heq]
      show statesBounds (setSt s.signalStates k
        (fun st => { st with controlPoints := [], data := generateBaselineData k s.duration s.sampleRate }))
      refine statesBounds_setSt hbase ?_
      intro st' sig hsig _ _
      refine ⟨generateBaselineData_bounds k s.duration s.sampleRate hsig, ?_⟩
      intro p hp
      simp at hp
  · -- addControlPoint
    intro k p
    cases h1 : lookupSt s.signalStates k with
    | none =>
      have heq : addControlPointStore k p s = s := by
        unfold addControlPointStore
        rw [h1]
      rw [heq]
      exact h
    | some st =>
      cases h2 : findSignal k with
      | none =>
        have heq : addControlPointStore k p s = s := by
          unfold addControlPointStore
          rw [h1, h2]
        rw [heq]
        exact h
      | some sig =>
        have heq : addControlPointStore k p s = regenerateStore k
            { s with signalStates := (setSt s.signalStates k
              (fun st => { st with controlPoints := sortByX (st.controlPoints ++ [clampPoint sig s.duration p]) })) } := by
          unfold addControlPointStore
          rw [h1, h2]
        rw [heq]
        apply statesBounds_regenerate
        show statesBounds (setSt s.signalStates k
          (fun st => { st with controlPoints := sortByX (st.controlPoints ++ [clampPoint sig s.duration p]) }))
        refine statesBounds_setSt hbase ?_
        intro st' sig' hsig' hd hc
        refine ⟨hd, ?_⟩
        intro q hq
        have hq' := (List.perm_insertionSort _ _).mem_iff.1 hq
        rcases List.mem_append.1 hq' with hq2 | hq2
        · exact hc q hq2
        · have hq3 : q = clampPoint sig s.duration p := by simpa using hq2
          rw [hq3]
          have hss : sig' = sig := by
            rw [h2] at hsig'
            exact (Option.some.inj hsig').symm
          subst hss
          exact clampQ_inB sig' (findSignal_minmax h2) p.y
  · -- moveControlPoint
    intro k i p
    cases h1 : lookupSt s.signalStates k with
    | none =>
      have heq : moveControlPointStore k i p s = s := by
        unfold moveControlPointStore
        rw [h1]
      rw [heq]
      exact h
    | some st =>
      cases h2 : findSignal k with
      | none =>
        have heq : moveControlPointStore k i p s = s := by
          unfold moveControlPointStore
          rw [h1, h2]
        rw [heq]
        exact h
      | some sig =>
        by_cases hi : i < st.controlPoints.length
        · have heq : moveControlPointStore k i p s = regenerateStore k
              { s with signalStates := (setSt s.signalStates k
                (fun st' => { st' with controlPoints := sortByX (st'.controlPoints.set i (clampPoint sig s.duration p)) })) } := by
            unfold moveControlPointStore
            rw [h1, h2]
            dsimp only
            rw [if_pos hi]
          rw [heq]
          apply statesBounds_regenerate
          show statesBounds (setSt s.signalStates k
            (fun st' => { st' with controlPoints := sortByX (st'.controlPoints.set i (clampPoint sig s.duration p)) }))
          refine statesBounds_setSt hbase ?_
          intro st' sig' hsig' hd hc
          refine ⟨hd, ?_⟩
          intro q hq
          have hq' := (List.perm_insertionSort _ _).mem_iff.1 hq
          rcases List.mem_or_eq_of_mem_set hq' with hq2 | hq2
          · exact hc q hq2
          · rw [hq2]
            have hss : sig' = sig := by
              rw [h2] at hsig'
              exact (Option.some.inj hsig').symm
            subst hss
            exact clampQ_inB sig' (findSignal_minmax h2) p.y
        · have heq : moveControlPointStore k i p s = s := by
            unfold moveControlPointStore
            rw [h1, h2]
            dsimp only
            rw [if_neg hi]
          rw [heq]
          exact h
  · -- deleteControlPoint
    intro k i
    cases h1 : lookupSt s.signalStates k with
    | none =>
      have heq : deleteControlPointStore k i s = s := by
        unfold deleteControlPointStore
        rw [h1]
      rw [heq]
      exact h
    | some st =>
      by_cases hi : i < st.controlPoints.length
      · have heq : deleteControlPointStore k i s = regenerateStore k
            { s with signalStates := (setSt s.signalStates k
              (fun st' => { st' with controlPoints := st'.controlPoints.eraseIdx i })) } := by
          unfold deleteControlPointStore
          rw [h1]
          dsimp only
          rw [if_pos hi]
        rw [heq]
        apply statesBounds_regenerate
        show statesBounds (setSt s.signalStates k
          (fun st' => { st' with controlPoints := st'.controlPoints.eraseIdx i }))
        refine statesBounds_setSt hbase ?_
        intro st' sig' hsig' hd hc
        exact ⟨hd, fun q hq => hc q (List.mem_of_mem_eraseIdx hq)⟩
      · have heq : deleteControlPointStore k i s = s := by
          unfold deleteControlPointStore
          rw [h1]
          dsimp only
          rw [if_neg hi]
        rw [heq]
        exact h
  · -- toggleSignalVisibility
    intro k
    cases hl : lookupSt s.signalStates k with
    | none =>
      have heq : toggleVisibilityStore k s = s := by
        unfold toggleVisibilityStore
        rw [hl]
      rw [heq]
      exact h
    | some st =>
      have heq : toggleVisibilityStore k s = { s with signalStates := (setSt s.signalStates k
          (fun st => { st with isVisible := !st.isVisible })) } := by
        unfold toggleVisibilityStore
        rw [hl]
      rw [heq]
      show statesBounds (setSt s.signalStates k (fun st => { st with isVisible := !st.isVisible }))
      exact statesBounds_setSt hbase (fun _ _ _ hd hc => ⟨hd, hc⟩)
  · -- importCSV
    intro rows
    exact importCSVRun_bounds s rows h

/-- A store whose single HR sample is safely inside the bounds. -/
def c2Store : Store :=
  { selectedSignals := ["HR"]
  , signalStates := [("HR", ⟨"HR", [⟨0, 70, false⟩], [], true, 1⟩)]
  , duration := 0
  , sampleRate := 1000
  , globalCascadeEnabled := true }

set_option maxRecDepth 2000 in
/-- Claim C2 counterexample: `updateSignalData` stores the caller's array
verbatim — the value 221 > HR.max = 220 is committed without clamping, so the
bounds invariant does not hold after every store write. -/
theorem updateSignalData_skips_clamping :
    storeBounds c2Store ∧
    ¬ storeBounds (updateSignalDataStore "HR" [⟨0, 221, true⟩] c2Store) := by decide

set_option maxRecDepth 2000 in
theorem bounds_invariant_after_mutations_witness :
    storeBounds c2Store ∧ storeBounds (setDurationStore 1 c2Store) :=
  ⟨by decide, (bounds_invariant_after_mutations c2Store (by decide)).2.2.1 1⟩

/-! ## Import validation atomicity (claim C4) and column matching (claim C8) -/

/-- Claim C4: when the CSV has no rows, no detectable time column, or zero
columns matching a known signal, `importCSV` rejects with an error message
and returns the store it was given — every rejection happens before the
first `set`, so no partial data is committed. -/
theorem importCSV_validation_failure_atomic (s : Store) (rows : List Row)
    (h : rows = []
      ∨ (∃ r0 rest, rows = r0 :: rest ∧ (rowKeys r0).find? isTimeLike = none)
      ∨ (∃ r0 rest, rows = r0 :: rest ∧ signalMappingOf (rowKeys r0) = [])) :
    (importCSVRun s rows).2 = s ∧ ((importCSVRun s rows).1).isSome = true := by
  rcases h with rfl | ⟨r0, rest, rfl, htc⟩ | ⟨r0, rest, rfl, hm⟩
  · exact ⟨rfl, rfl⟩
  · unfold importCSVRun
    dsimp only
    split
    · exact ⟨rfl, rfl⟩
    · next tc htc2 =>
      rw [htc] at htc2
      simp at htc2
  · unfold importCSVRun
    dsimp only
    split
    · exact ⟨rfl, rfl⟩
    · next tc htc2 =>
      split
      · exact ⟨rfl, rfl⟩
      · next t0 ts htv =>
        split
        · exact ⟨rfl, rfl⟩
        · next m ms hmm2 =>
          rw [hm] at hmm2
          simp at hmm2

/-- The malformed header of the spec's atomicity test. -/
def c4Rows : List Row := [[("foo", "1"), ("bar", "2")]]

theorem importCSV_validation_failure_atomic_witness :
    (importCSVRun initialStore c4Rows).2 = initialStore ∧
    ((importCSVRun initialStore c4Rows).1).isSome = true :=
  importCSV_validation_failure_atomic initialStore c4Rows
    (Or.inr (Or.inl ⟨[("foo", "1"), ("bar", "2")], [], rfl, by decide⟩))

/-- A CSV carrying the known signal key "NBP (Time Remaining)" as a header. -/
def nbpRows : List Row :=
  [[("Time", "0"), ("NBP (Time Remaining)", "5")],
   [("Time", "1000"), ("NBP (Time Remaining)", "6")]]

set_option maxRecDepth 4000 in
/-- Claim C8 counterexample: the header "NBP (Time Remaining)" equals a known
signal key under case-insensitive comparison (`matchKey` succeeds on it), yet
`importCSV` rejects the file with "No matching signal columns found": the
signal-column pre-filter discards every header whose lowercase form contains
"time", "clock" or "milliseconds" before matching is attempted. -/
theorem nbp_time_remaining_not_importable :
    matchKey "NBP (Time Remaining)" = some "NBP (Time Remaining)" ∧
    (SIGNALS.map (·.1)).contains "NBP (Time Remaining)" = true ∧
    importCSVRun initialStore nbpRows =
      (some "No matching signal columns found", initialStore) := by decide

/-- Claim C8 (amended): `importCSV` first discards every column whose header
contains "time"/"clock"/"milliseconds" case-insensitively; among the
surviving columns, matching is case-insensitive exact equality against the
known keys.  Given rows with a detected time column and at least one valid
time value, the import rejects exactly when the surviving matched-column list
is empty, and on success the selected signals are exactly the matches. -/
theorem importCSV_matching_excludes_timelike (s : Store) (r0 : Row) (rest : List Row)
    (tc : String) (htc : (rowKeys r0).find? isTimeLike = some tc)
    (htv : sortQ ((r0 :: rest).filterMap (fun row => parseTimeCell (rowGet row tc))) ≠ []) :
    (((importCSVRun s (r0 :: rest)).1.isSome = true) ↔
        (signalMappingOf (rowKeys r0)).map (·.2) = [])
    ∧ ((signalMappingOf (rowKeys r0)).map (·.2) ≠ [] →
        (importCSVRun s (r0 :: rest)).2.selectedSignals =
          (signalMappingOf (rowKeys r0)).map (·.2))
    ∧ (∀ (keys : List String) (c : String), isTimeClockLike c = true →
        c ∉ (signalMappingOf keys).map (·.1)) := by
  have hthird : ∀ (keys : List String) (c : String), isTimeClockLike c = true →
      c ∉ (signalMappingOf keys).map (·.1) := by
    intro keys c hc hmem
    obtain ⟨e, he, heq⟩ := List.mem_map.1 hmem
    unfold signalMappingOf at he
    obtain ⟨c', hc', heqc⟩ := List.mem_filterMap.1 he
    have hcc : e.1 = c' := by
      cases hmk : matchKey c' with
      | none => rw [hmk] at heqc; simp at heqc
      | some m =>
        rw [hmk] at heqc
        have : (c', m) = e := by simpa using heqc
        rw [← this]
    have hfilter := (List.mem_filter.1 hc').2
    rw [← heq, hcc] at hc
    rw [hc] at hfilter
    simp at hfilter
  refine ⟨?_, ?_, hthird⟩
  all_goals
    unfold importCSVRun
    dsimp only
    split
  · next htc2 => rw [htc] at htc2; simp at htc2
  · next tc2 htc2 =>
    rw [htc] at htc2
    have htcc : tc2 = tc := by
      have := Option.some.inj htc2
      exact this.symm
    subst htcc
    split
    · next hv => exact absurd hv htv
    · next t0 ts hv =>
      split
      · next hM => rw [hM]; simp
      · next m ms hM => rw [hM]; simp
  · next htc2 => rw [htc] at htc2; simp at htc2
  · next tc2 htc2 =>
    rw [htc] at htc2
    have htcc : tc2 = tc := by
      have := Option.some.inj htc2
      exact this.symm
    subst htcc
    split
    · next hv => exact absurd hv htv
    · next t0 ts hv =>
      split
      · next hM => intro hne; exact absurd hM hne
      · next m ms hM => intro _; rfl

/-- Two well-formed CSV rows carrying an HR column. -/
def c8r0 : Row := [("Time", "0"), ("HR", "70")]

/-- Second row of the HR import example. -/
def c8r1 : Row := [("Time", "1000"), ("HR", "75")]

set_option maxRecDepth 4000 in
theorem importCSV_matching_excludes_timelike_witness :
    (importCSVRun initialStore (c8r0 :: [c8r1])).2.selectedSignals = ["HR"] ∧
    (importCSVRun initialStore (c8r0 :: [c8r1])).1 = none := by
  have h := importCSV_matching_excludes_timelike initialStore c8r0 [c8r1] "Time"
    (by decide) (by decide)
  refine ⟨?_, ?_⟩
  · rw [h.2.1 (by decide)]
    decide
  · have hne : ¬ ((importCSVRun initialStore (c8r0 :: [c8r1])).1.isSome = true) := by
      rw [h.1]
      decide
    exact Option.not_isSome_iff_eq_none.1 hne

/-! ## Export numeric formatting (claim C9) -/

/-- The claim's integer families: heart rate, respiratory rate, pulse, SpO2,
BIS, SQI and EMG. -/
def claimIntFamilies : List String := ["HR", "RR", "Pulse", "SpO2", "BIS", "SQI", "EMG"]

/-- The formatting rule exactly as the claim words it: integer families render
as a rounded integer, the MAC family with two decimals, everything else with
one decimal. -/
def claimFormatSignalValue (value : ℚ) (signalId : String) : String :=
  if claimIntFamilies.any (fun fam => strIncludes signalId.data fam.data) then
    ⟨intStr (mathRound value)⟩
  else if strIncludes signalId.data "MAC".data then ⟨toFixedQ value 2⟩
  else ⟨toFixedQ value 1⟩

/-- Claim C9: for every known signal key and every value, the source's
`formatSignalValue` renders exactly as the claim's family rule prescribes. -/
theorem formatSignalValue_matches_families (key : String)
    (hk : key ∈ SIGNALS.map (·.1)) (v : ℚ) :
    formatSignalValue v key = claimFormatSignalValue v key := by
  fin_cases hk <;> rfl

theorem formatSignalValue_matches_families_witness :
    formatSignalValue (7 / 2) "HR" = claimFormatSignalValue (7 / 2) "HR" ∧
    formatSignalValue (7 / 2) "HR" = "4" ∧
    formatSignalValue (7 / 2) "MAC" = "3.50" ∧
    formatSignalValue (7 / 2) "Temp" = "3.5" :=
  ⟨formatSignalValue_matches_families "HR" (by decide) (7 / 2),
   by decide, by decide, by decide⟩

/-! ## C10: the exported time string parses back to the exact millisecond -/

/-- A character produced by the decimal digit renderer. -/
def DigitCh (c : Char) : Prop := ∃ d, d < 10 ∧ c = Nat.digitChar d

theorem digitCh_props {c : Char} (h : DigitCh c) :
    c.isDigit = true ∧ c.isWhitespace = false ∧ c ≠ ':' ∧ c ≠ '_' ∧ c ≠ '.' ∧
      c ≠ '-' ∧ c ≠ '+' := by
  obtain ⟨d, hd, rfl⟩ := h
  interval_cases d <;> exact ⟨by decide, by decide, by decide, by decide, by decide,
    by decide, by decide⟩

theorem digitChar_toNat {d : ℕ} (hd : d < 10) : (Nat.digitChar d).toNat - 48 = d := by
  interval_cases d <;> decide

theorem digitsToNat_append_singleton (l : JStr) (c : Char) :
    digitsToNat (l ++ [c]) = digitsToNat l * 10 + (c.toNat - 48) := by
  unfold digitsToNat
  rw [List.foldl_append]
  simp [List.foldl_cons]

theorem natReprAux_spec :
    ∀ fuel n : ℕ, n < fuel →
      (∀ c ∈ natReprAux fuel n, DigitCh c) ∧
        digitsToNat (natReprAux fuel n) = n ∧ natReprAux fuel n ≠ [] := by
  intro fuel
  induction fuel with
  | zero => intro n hn; exact absurd hn (Nat.not_lt_zero n)
  | succ fuel ih =>
    intro n hn
    by_cases h10 : n < 10
    · simp only [natReprAux, if_pos h10]
      refine ⟨?_, ?_, by simp⟩
      · intro c hc
        simp only [List.mem_singleton] at hc
        exact ⟨n, h10, hc⟩
      · show digitsToNat ([] ++ [Nat.digitChar n]) = n
        rw [digitsToNat_append_singleton, digitChar_toNat h10]
        have hz : digitsToNat [] = 0 := rfl
        omega
    · have hpos : 0 < n := by omega
      have hrec : n / 10 < fuel := by
        have := Nat.div_lt_self hpos (by omega : 1 < 10)
        omega
      obtain ⟨ihd, ihv, ihne⟩ := ih (n / 10) hrec
      simp only [natReprAux, if_neg h10]
      refine ⟨?_, ?_, by simp⟩
      · intro c hc
        rcases List.mem_append.1 hc with h | h
        · exact ihd c h
        · simp only [List.mem_singleton] at h
          exact ⟨n % 10, Nat.mod_lt _ (by omega), h⟩
      · rw [digitsToNat_append_singleton, ihv,
          digitChar_toNat (Nat.mod_lt _ (by omega : 0 < 10))]
        omega

theorem natRepr_spec (n : ℕ) :
    (∀ c ∈ natRepr n, DigitCh c) ∧ digitsToNat (natRepr n) = n ∧ natRepr n ≠ [] :=
  natReprAux_spec (n + 1) n (Nat.lt_succ_self n)

theorem padStart_digits {s : JStr} (h : ∀ c ∈ s, DigitCh c) (k : ℕ) :
    ∀ c ∈ padStart s k '0', DigitCh c := by
  intro c hc
  rcases List.mem_append.1 hc with h0 | hs
  · have hc0 : c = '0' := List.eq_of_mem_replicate h0
    exact ⟨0, by omega, by rw [hc0]; decide⟩
  · exact h c hs

theorem padStart_ne_nil {s : JStr} (h : s ≠ []) (k : ℕ) (c : Char) :
    padStart s k c ≠ [] := by
  unfold padStart
  intro hc
  exact h (List.append_eq_nil.1 hc).2

theorem digitsToNat_replicate_zero (m : ℕ) (l : JStr) :
    digitsToNat (List.replicate m '0' ++ l) = digitsToNat l := by
  induction m with
  | zero => rfl
  | succ m ih =>
    rw [List.replicate_succ, List.cons_append]
    show digitsToNat (List.replicate m '0' ++ l) = digitsToNat l
    exact ih

theorem digitsToNat_padStart (s : JStr) (k : ℕ) :
    digitsToNat (padStart s k '0') = digitsToNat s :=
  digitsToNat_replicate_zero _ _

theorem digitsToNat_pad_natRepr (n k : ℕ) :
    digitsToNat (padStart (natRepr n) k '0') = n := by
  rw [digitsToNat_padStart, (natRepr_spec n).2.1]

theorem dropWhile_eq_of_forall {p : Char → Bool} {l : JStr}
    (h : ∀ c ∈ l, p c = false) : l.dropWhile p = l := by
  cases l with
  | nil => rfl
  | cons a t => simp [List.dropWhile_cons, h a (by simp)]

theorem trimChars_eq_self {l : JStr} (h : ∀ c ∈ l, c.isWhitespace = false) :
    trimChars l = l := by
  unfold trimChars
  rw [dropWhile_eq_of_forall h, dropWhile_eq_of_forall
    (fun c hc => h c (List.mem_reverse.1 hc)), List.reverse_reverse]

theorem splitOnChar_of_not_mem {c : Char} {l : JStr} (h : c ∉ l) :
    splitOnChar c l = [l] := by
  induction l with
  | nil => rfl
  | cons a t ih =>
    simp only [List.mem_cons, not_or] at h
    simp [splitOnChar, ih h.2, Ne.symm h.1]

theorem splitOnChar_append (c : Char) {a : JStr} (h : c ∉ a) (b : JStr) :
    splitOnChar c (a ++ c :: b) = a :: splitOnChar c b := by
  induction a with
  | nil => simp [splitOnChar]
  | cons x t ih =>
    simp only [List.mem_cons, not_or] at h
    simp [splitOnChar, ih h.2, Ne.symm h.1]

theorem strIncludes_singleton_of_mem {c : Char} {l : JStr} (h : c ∈ l) :
    strIncludes l [c] = true := by
  induction l with
  | nil => cases h
  | cons a t ih =>
    rcases List.mem_cons.1 h with h | h
    · subst h
      simp [strIncludes, List.isPrefixOf]
    · simp [strIncludes, ih h]

theorem parseNum_digits {l : JStr} (hd : ∀ c ∈ l, DigitCh c) (hne : l ≠ []) :
    parseNum l = some ((digitsToNat l : ℚ)) := by
  obtain ⟨c0, t, rfl⟩ : ∃ c0 t, l = c0 :: t := by
    cases l with
    | nil => exact absurd rfl hne
    | cons a t => exact ⟨a, t, rfl⟩
  have hc0 := digitCh_props (hd c0 (by simp))
  have hws : ∀ c ∈ c0 :: t, Char.isWhitespace c = false :=
    fun c hc => (digitCh_props (hd c hc)).2.1
  have hdot : '.' ∉ c0 :: t := fun hm => (digitCh_props (hd _ hm)).2.2.2.2.1 rfl
  have hdig : (c0 :: t).all Char.isDigit = true := by
    rw [List.all_eq_true]
    exact fun c hc => (digitCh_props (hd c hc)).1
  have h1 : ¬((c0 :: t).isEmpty = true) := by simp
  have h2 : ¬((c0 :: t).head? = some '-') := by
    simp only [List.head?_cons, Option.some.injEq]
    exact hc0.2.2.2.2.2.1
  have h3 : ¬((c0 :: t).head? = some '+') := by
    simp only [List.head?_cons, Option.some.injEq]
    exact hc0.2.2.2.2.2.2
  simp only [parseNum, trimChars_eq_self hws]
  rw [if_neg h1, if_neg h2, if_neg h3]
  simp only [parsePos, splitOnChar_of_not_mem hdot]
  rw [if_pos (by simp [hdig])]

theorem parseTimeCell_format (A B C D : JStr)
    (hA : ∀ c ∈ A, DigitCh c) (hB : ∀ c ∈ B, DigitCh c)
    (hC : ∀ c ∈ C, DigitCh c) (hD : ∀ c ∈ D, DigitCh c)
    (hAne : A ≠ []) (hBne : B ≠ []) (hCne : C ≠ []) (hDne : D ≠ []) :
    parseTimeCell ⟨A ++ ':' :: B ++ ':' :: C ++ '_' :: D⟩ =
      some (((digitsToNat A : ℚ) * 3600 + (digitsToNat B : ℚ) * 60 +
        (digitsToNat C : ℚ)) * 1000 + (digitsToNat D : ℚ)) := by
  have hcA : ':' ∉ A := fun hm => (digitCh_props (hA _ hm)).2.2.1 rfl
  have hcB : ':' ∉ B := fun hm => (digitCh_props (hB _ hm)).2.2.1 rfl
  have hcCD : ':' ∉ C ++ '_' :: D := by
    intro hm
    rcases List.mem_append.1 hm with h | h
    · exact (digitCh_props (hC _ h)).2.2.1 rfl
    · rcases List.mem_cons.1 h with h | h
      · exact absurd h (by decide)
      · exact (digitCh_props (hD _ h)).2.2.1 rfl
  have huC : '_' ∉ C := fun hm => (digitCh_props (hC _ hm)).2.2.2.1 rfl
  have huD : '_' ∉ D := fun hm => (digitCh_props (hD _ hm)).2.2.2.1 rfl
  have hdata : (⟨A ++ ':' :: B ++ ':' :: C ++ '_' :: D⟩ : String).data =
      A ++ ':' :: B ++ ':' :: C ++ '_' :: D := rfl
  have hmem : ':' ∈ A ++ ':' :: B ++ ':' :: C ++ '_' :: D := by simp
  have hsplit : splitOnChar ':' (A ++ ':' :: B ++ ':' :: C ++ '_' :: D) =
      [A, B, C ++ '_' :: D] := by
    rw [show (A ++ ':' :: B ++ ':' :: C ++ '_' :: D : JStr) =
        A ++ ':' :: (B ++ ':' :: (C ++ '_' :: D)) by simp,
      splitOnChar_append ':' hcA, splitOnChar_append ':' hcB,
      splitOnChar_of_not_mem hcCD]
  have hsplit2 : splitOnChar '_' (C ++ '_' :: D) = [C, D] := by
    rw [splitOnChar_append '_' huC, splitOnChar_of_not_mem huD]
  simp only [parseTimeCell, hdata, strIncludes_singleton_of_mem hmem, if_true, hsplit,
    parseNum_digits hA hAne, parseNum_digits hB hBne, hsplit2, List.map_cons,
    List.map_nil, parseNum_digits hC hCne, parseNum_digits hD hDne, Option.getD_some]

/-- **C10.** Time-string round trip: for every natural number of milliseconds
`ms`, the exported `HH:MM:SS_mmm` string `formatTime ms` fed back through the
CSV import time parser yields exactly `ms`. -/
theorem formatTime_parse_roundtrip (ms : ℕ) :
    parseTimeCell (formatTime ms) = some ((ms : ℚ)) := by
  have hfmt : formatTime ms =
      ⟨padStart (natRepr (ms / 1000 / 3600)) 2 '0' ++
        ':' :: padStart (natRepr (ms / 1000 % 3600 / 60)) 2 '0' ++
        ':' :: padStart (natRepr (ms / 1000 % 60)) 2 '0' ++
        '_' :: padStart (natRepr (ms % 1000)) 3 '0'⟩ := rfl
  rw [hfmt, parseTimeCell_format _ _ _ _
    (padStart_digits (natRepr_spec _).1 _) (padStart_digits (natRepr_spec _).1 _)
    (padStart_digits (natRepr_spec _).1 _) (padStart_digits (natRepr_spec _).1 _)
    (padStart_ne_nil (natRepr_spec _).2.2 _ _) (padStart_ne_nil (natRepr_spec _).2.2 _ _)
    (padStart_ne_nil (natRepr_spec _).2.2 _ _) (padStart_ne_nil (natRepr_spec _).2.2 _ _),
    digitsToNat_pad_natRepr, digitsToNat_pad_natRepr, digitsToNat_pad_natRepr,
    digitsToNat_pad_natRepr]
  have key : (ms / 1000 / 3600 * 3600 + ms / 1000 % 3600 / 60 * 60 + ms / 1000 % 60) * 1000
      + ms % 1000 = ms := by omega
  congr 1
  exact_mod_cast congrArg (fun n : ℕ => ((n : ℚ))) key
